import Mathlib

/-!
Verification development for the Network-Journal note-processing core
(`src/backend/ai_service/note_processor.py` together with the graph-store
operations it calls in `src/backend/graph_service/`).

The embedding is shallow: the Neo4j graph store is modelled as an explicit
state record (`GraphState`), each store function becomes a pure function on
that state, and the note-processor pipeline becomes explicit state passing.
The two LLM calls (extraction and disambiguation) are external collaborators
and are modelled as oracle inputs (`LlmReply`).  Python's dynamically typed
values that flow into edge attributes are modelled by `PyVal`; Python
truthiness tests on optional strings are modelled by `strOptFalsy`.
-/

set_option autoImplicit false

namespace NetworkJournal

/-- A dynamically typed Python value, as far as the pipeline needs it:
edge-attribute positions receive ints, strings, or `None`. -/
inductive PyVal where
  | vNone : PyVal
  | vStr : String → PyVal
  | vInt : Int → PyVal
deriving DecidableEq, Repr

/-- A Python dict with string keys, used for the `properties` mappings. -/
abbrev PyDict := List (String × PyVal)

/-- `d.get(k, dflt)`: the stored value if the key is present (even when the
stored value is `None`), the default otherwise. -/
def pyGet (d : PyDict) (k : String) (dflt : PyVal) : PyVal :=
  match d with
  | [] => dflt
  | p :: rest => if p.1 = k then p.2 else pyGet rest k dflt

/-- Python truthiness of an optional string: `None` and `""` are falsy.
Models `if not x:` on `Optional[str]` fields such as ids. -/
def strOptFalsy : Option String → Bool
  | none => true
  | some s => s = ""

/-- `needle` is a leading run of `hay` (list form of Cypher `STARTS WITH`). -/
def leadsWith : List Char → List Char → Bool
  | _, [] => true
  | [], _ :: _ => false
  | h :: hs, n :: ns => h = n && leadsWith hs ns

/-- `needle` occurs as a contiguous run inside `hay` (Cypher `CONTAINS`). -/
def containsRun : List Char → List Char → Bool
  | [], n => n.isEmpty
  | h :: hs, n => leadsWith (h :: hs) n || containsRun hs n

/-- Substring test on strings, the semantics of Cypher `CONTAINS`. -/
def strHas (hay needle : String) : Bool :=
  containsRun hay.toList needle.toList

/-- Lexicographic comparison of char lists by code point, used for the
`ORDER BY p.name` clause of `search_people`. -/
def charsLe : List Char → List Char → Bool
  | [], _ => true
  | _ :: _, [] => false
  | a :: as, b :: bs => if a = b then charsLe as bs else decide (a.toNat < b.toNat)

/-- String comparison used to model `ORDER BY p.name`. -/
def strLe (a b : String) : Bool :=
  charsLe a.toList b.toList

/-- ASCII lower-casing, modelling Python's `str.lower()` on the ASCII names
the pipeline compares. -/
def strLower (s : String) : String :=
  ⟨s.data.map Char.toLower⟩

/-- A stored `Person` node (`src/shared/types.py` / `people.py`), restricted
to the fields the note-processing pipeline reads or writes.  `email` is kept
because `search_people` matches on it; the tag fields are kept because entity
creation sets them.  Unread optional fields (phone, linkedin_url, dates) are
omitted. -/
structure StoredPerson where
  id : String
  name : String
  email : Option String
  sourceOfContact : String
  status : String
  notes : String
  dataSource : String
deriving DecidableEq, Repr

/-- A stored `Company` node, restricted to the fields the pipeline uses
(`industry`/`website` are created as `None` and never read). -/
structure StoredCompany where
  id : String
  name : String
deriving DecidableEq, Repr

/-- A stored `Topic` node. -/
structure StoredTopic where
  id : String
  name : String
deriving DecidableEq, Repr

/-- A stored `Event` node (its `date`/`type` fields are write-only in the
pipeline and omitted). -/
structure StoredEvent where
  id : String
  name : String
deriving DecidableEq, Repr

/-- A stored `Location` node; the pipeline looks locations up by `city`. -/
structure StoredLocation where
  id : String
  city : String
deriving DecidableEq, Repr

/-- A `KNOWS` edge as written by `create_person_relationship`
(`people.py:291`): `SET r.type = $relationship_type, r.strength = $strength`.
The attribute positions hold whatever dynamic values the caller passed. -/
structure KnowsEdge where
  fromId : String
  toId : String
  typeAttr : PyVal
  strengthAttr : PyVal
deriving DecidableEq, Repr

/-- A `WORKS_AT` edge as written by `link_person_to_company`
(`people.py:201`); the start/end dates are write-only wall-clock values and
are omitted. -/
structure WorksAtEdge where
  personId : String
  companyId : String
  role : PyVal
deriving DecidableEq, Repr

/-- The graph store, with a deterministic id supply replacing `uuid4` and a
log of create calls (entity type tag, name) used to state how many creates a
run issues. -/
structure GraphState where
  people : List StoredPerson
  companies : List StoredCompany
  topics : List StoredTopic
  events : List StoredEvent
  locations : List StoredLocation
  knows : List KnowsEdge
  worksAt : List WorksAtEdge
  interestedIn : List (String × String)
  attended : List (String × String)
  nextId : Nat
  createLog : List (String × String)
deriving DecidableEq, Repr

/-- The deterministic stand-in for `uuid4`. -/
def freshId (st : GraphState) : String :=
  "id" ++ toString st.nextId

/-- First list element satisfying a decidable test (the `result.single()`
reading of a Cypher exact-name `MATCH`). -/
def firstSuch {α : Type} (p : α → Bool) : List α → Option α
  | [] => none
  | a :: rest => if p a then some a else firstSuch p rest

/-- `get_person_by_name` (`people.py:159`): exact, case-sensitive name
match. -/
def get_person_by_name (st : GraphState) (name : String) : Option StoredPerson :=
  firstSuch (fun p => p.name = name) st.people

/-- `get_company_by_name` (`companies.py:161`). -/
def get_company_by_name (st : GraphState) (name : String) : Option StoredCompany :=
  firstSuch (fun c => c.name = name) st.companies

/-- `get_topic_by_name` (`topics.py:296`). -/
def get_topic_by_name (st : GraphState) (name : String) : Option StoredTopic :=
  firstSuch (fun t => t.name = name) st.topics

/-- `get_event_by_name` (`events.py:346`). -/
def get_event_by_name (st : GraphState) (name : String) : Option StoredEvent :=
  firstSuch (fun e => e.name = name) st.events

/-- `get_location_by_city` (`locations.py:346`). -/
def get_location_by_city (st : GraphState) (city : String) : Option StoredLocation :=
  firstSuch (fun l => l.city = city) st.locations

/-- The `WHERE` clause of `search_people` (`people.py:175`): name or email
contains the query; a null email never matches. -/
def searchMatches (q : String) (p : StoredPerson) : Bool :=
  strHas p.name q ||
    (match p.email with
     | some e => strHas e q
     | none => false)

/-- The `ORDER BY` rank of `search_people`: exact match first, then name
starting with the query, then the rest. -/
def searchRank (q : String) (p : StoredPerson) : Nat :=
  if p.name = q then 1 else if leadsWith p.name.toList q.toList then 2 else 3

/-- Comparison realising `ORDER BY rank, p.name`. -/
def searchLe (q : String) (a b : StoredPerson) : Bool :=
  decide (searchRank q a < searchRank q b) ||
    (searchRank q a = searchRank q b && strLe a.name b.name)

/-- Ordered insert for the insertion sort modelling `ORDER BY`. -/
def insertByLe (le : StoredPerson → StoredPerson → Bool) (a : StoredPerson) :
    List StoredPerson → List StoredPerson
  | [] => [a]
  | b :: bs => if le b a then b :: insertByLe le a bs else a :: b :: bs

/-- Insertion sort modelling the `ORDER BY` clause (Neo4j guarantees no
particular order among ties; this picks one deterministically). -/
def sortByLe (le : StoredPerson → StoredPerson → Bool) :
    List StoredPerson → List StoredPerson
  | [] => []
  | a :: as => insertByLe le a (sortByLe le as)

/-- `search_people` (`people.py:175`): fuzzy match over name and email,
ordered by exactness rank and then name. -/
def search_people (st : GraphState) (q : String) : List StoredPerson :=
  sortByLe (searchLe q) (st.people.filter (searchMatches q))

/-- `create_person` (`people.py:40`): append a fresh `Person` node and record
the create call. -/
def create_person (st : GraphState) (name : String) (email : Option String)
    (sourceOfContact status notes dataSource : String) :
    StoredPerson × GraphState :=
  let p : StoredPerson :=
    { id := freshId st, name := name, email := email,
      sourceOfContact := sourceOfContact, status := status, notes := notes,
      dataSource := dataSource }
  (p, { st with
        people := st.people ++ [p],
        nextId := st.nextId + 1,
        createLog := st.createLog ++ [("person", name)] })

/-- `create_company` (`companies.py`). -/
def create_company (st : GraphState) (name : String) :
    StoredCompany × GraphState :=
  let c : StoredCompany := { id := freshId st, name := name }
  (c, { st with
        companies := st.companies ++ [c],
        nextId := st.nextId + 1,
        createLog := st.createLog ++ [("company", name)] })

/-- `create_topic` (`topics.py`). -/
def create_topic (st : GraphState) (name : String) :
    StoredTopic × GraphState :=
  let t : StoredTopic := { id := freshId st, name := name }
  (t, { st with
        topics := st.topics ++ [t],
        nextId := st.nextId + 1,
        createLog := st.createLog ++ [("topic", name)] })

/-- `create_event` (`events.py`). -/
def create_event (st : GraphState) (name : String) :
    StoredEvent × GraphState :=
  let e : StoredEvent := { id := freshId st, name := name }
  (e, { st with
        events := st.events ++ [e],
        nextId := st.nextId + 1,
        createLog := st.createLog ++ [("event", name)] })

/-- `create_location` (`locations.py`); the pipeline passes the mention name
as the city. -/
def create_location (st : GraphState) (city : String) :
    StoredLocation × GraphState :=
  let l : StoredLocation := { id := freshId st, city := city }
  (l, { st with
        locations := st.locations ++ [l],
        nextId := st.nextId + 1,
        createLog := st.createLog ++ [("location", city)] })

/-- Id-existence test used by the `MATCH (x {id: $id})` clauses of the link
queries. -/
def hasPersonId (st : GraphState) (i : String) : Bool :=
  st.people.any (fun p => p.id = i)

/-- Id-existence test for companies. -/
def hasCompanyId (st : GraphState) (i : String) : Bool :=
  st.companies.any (fun c => c.id = i)

/-- Id-existence test for topics. -/
def hasTopicId (st : GraphState) (i : String) : Bool :=
  st.topics.any (fun t => t.id = i)

/-- Id-existence test for events. -/
def hasEventId (st : GraphState) (i : String) : Bool :=
  st.events.any (fun e => e.id = i)

/-- `create_person_relationship` (`people.py:291`): `MERGE` a directed
`KNOWS` edge and `SET r.type` to the third argument, `r.strength` to the
fourth.  If either `MATCH` finds no node the query yields no row and
`result.single()["link_count"]` raises, modelled as `none`. -/
def create_person_relationship (st : GraphState)
    (from_person_id to_person_id : String)
    (relationship_type strength : PyVal) : Option (Bool × GraphState) :=
  if hasPersonId st from_person_id && hasPersonId st to_person_id then
    let updated :=
      if st.knows.any (fun e => e.fromId = from_person_id && e.toId = to_person_id) then
        st.knows.map (fun e =>
          if e.fromId = from_person_id && e.toId = to_person_id then
            { e with typeAttr := relationship_type, strengthAttr := strength }
          else e)
      else
        st.knows ++ [{ fromId := from_person_id, toId := to_person_id,
                       typeAttr := relationship_type, strengthAttr := strength }]
    some (true, { st with knows := updated })
  else none

/-- `link_person_to_company` (`people.py:201`): `MERGE` a `WORKS_AT` edge
and set its role; `none` models the raise when a `MATCH` finds no node. -/
def link_person_to_company (st : GraphState) (person_id company_id : String)
    (role : PyVal) : Option (Bool × GraphState) :=
  if hasPersonId st person_id && hasCompanyId st company_id then
    let updated :=
      if st.worksAt.any (fun e => e.personId = person_id && e.companyId = company_id) then
        st.worksAt.map (fun e =>
          if e.personId = person_id && e.companyId = company_id then
            { e with role := role }
          else e)
      else
        st.worksAt ++ [{ personId := person_id, companyId := company_id, role := role }]
    some (true, { st with worksAt := updated })
  else none

/-- `link_person_to_topic` (`topics.py:155`): `MERGE` an `INTERESTED_IN`
edge, no attributes. -/
def link_person_to_topic (st : GraphState) (person_id topic_id : String) :
    Option (Bool × GraphState) :=
  if hasPersonId st person_id && hasTopicId st topic_id then
    let updated :=
      if st.interestedIn.any (fun e => e.1 = person_id && e.2 = topic_id) then
        st.interestedIn
      else st.interestedIn ++ [(person_id, topic_id)]
    some (true, { st with interestedIn := updated })
  else none

/-- `link_person_to_event` (`events.py:186`): `MERGE` an `ATTENDED` edge,
no attributes. -/
def link_person_to_event (st : GraphState) (person_id event_id : String) :
    Option (Bool × GraphState) :=
  if hasPersonId st person_id && hasEventId st event_id then
    let updated :=
      if st.attended.any (fun e => e.1 = person_id && e.2 = event_id) then
        st.attended
      else st.attended ++ [(person_id, event_id)]
    some (true, { st with attended := updated })
  else none

/-- `EntityMention` (`note_processor.py:41`): an entity extracted from a
note.  `entity_type` is a free-form string (the schema names five kinds but
does not enforce them); `confidence` is an exact rational stand-in for the
float field. -/
structure EntityMention where
  name : String
  entity_type : String
  confidence : ℚ
  context : String
  properties : PyDict
deriving DecidableEq, Repr

/-- `RelationshipMention` (`note_processor.py:51`): a relationship between
two entities, referenced by name. -/
structure RelationshipMention where
  from_entity : String
  to_entity : String
  relationship_type : String
  strength : Option Int
  context : String
  properties : PyDict
deriving DecidableEq, Repr

/-- `NoteAnalysis` (`note_processor.py:62`): the parsed extraction result. -/
structure NoteAnalysis where
  entities : List EntityMention
  relationships : List RelationshipMention
  main_person_context : Option String
  ambiguous_entities : List String
  suggested_actions : List String
  confidence_score : ℚ
  processing_notes : List String
deriving DecidableEq, Repr

/-- `DisambiguationResult` (`note_processor.py:74`): the parsed
disambiguation decision. -/
structure DisambiguationResult where
  entity_name : String
  candidates : List PyDict
  suggested_action : String
  selected_candidate_id : Option String
  confidence : ℚ
  reasoning : String
deriving DecidableEq, Repr

/-- One resolution record, the dict built by the `_resolve_*` methods:
`action`, the mention itself, an optional id, and the optional
`confidence`/`reasoning` keys (the unsupported-type branch at
`note_processor.py:354` builds a dict without them, hence `Option`). -/
structure EntityResolution where
  action : String
  entity : EntityMention
  existing_id : Option String
  confidence : Option ℚ
  reasoning : Option String
deriving DecidableEq, Repr

/-- The resolution map: a Python dict keyed by entity display name,
modelled as an insertion-ordered association list with unique keys. -/
abbrev ResMap := List (String × EntityResolution)

/-- Dict lookup (first entry with the key). -/
def mapGet (m : ResMap) (k : String) : Option EntityResolution :=
  match m with
  | [] => none
  | p :: rest => if p.1 = k then some p.2 else mapGet rest k

/-- Dict assignment: replace in place when the key is present (keeping its
position, as Python dicts do), otherwise append. -/
def mapSet (m : ResMap) (k : String) (v : EntityResolution) : ResMap :=
  match m with
  | [] => [(k, v)]
  | p :: rest => if p.1 = k then (p.1, v) :: rest else p :: mapSet rest k v

/-- An LLM chain reply as the pipeline sees it: a response that parses into
the expected schema, a dict of the wrong shape (schema validation fails), or
the chain call raising. -/
inductive LlmReply (α : Type) where
  | parsed : α → LlmReply α
  | badShape : LlmReply α
  | raised : String → LlmReply α
deriving DecidableEq

/-- The exceptions that can escape `process_note_advanced` (its outer
`except` re-raises whatever it catches).  `attributeError` models calls to
the fallback helpers `_create_fallback_analysis` /
`_create_fallback_disambiguation`, which are invoked at
`note_processor.py:252` and `note_processor.py:429` but are defined nowhere
in the repository, so the call itself raises `AttributeError`. -/
inductive PyError where
  | configError : PyError
  | attributeError : String → PyError
  | chainError : String → PyError
deriving DecidableEq, Repr

/-- The service's session state (`AdvancedNoteProcessorService`):
`configured` is whether `OPENAI_API_KEY` was set at construction (the chains
are `None` otherwise), plus the mutable main-person fields. -/
structure Service where
  configured : Bool
  main_person_name : String
  main_person_id : Option String
deriving DecidableEq, Repr

/-- `set_main_person` (`note_processor.py:746`). -/
def set_main_person (svc : Service) (person_name : String)
    (person_id : Option String) : Service :=
  { svc with main_person_name := person_name, main_person_id := person_id }

/-- `_ensure_main_person_exists` (`note_processor.py:289`): skip when an id
is already cached (Python truthiness), else exact match, else adopt the
first fuzzy-search candidate (overwriting the session's main-person name),
else create the main person. -/
def ensure_main_person_exists (svc : Service) (st : GraphState) :
    Service × GraphState :=
  if strOptFalsy svc.main_person_id then
    match get_person_by_name st svc.main_person_name with
    | some p => ({ svc with main_person_id := some p.id }, st)
    | none =>
      match search_people st svc.main_person_name with
      | p :: _ =>
        ({ svc with main_person_id := some p.id, main_person_name := p.name }, st)
      | [] =>
        let (p, st2) := create_person st svc.main_person_name none "System"
          "active" "Main person in the network" "manual_entry"
        ({ svc with main_person_id := some p.id }, st2)
  else (svc, st)

/-- The pinned main-person resolution seeded at `note_processor.py:329`. -/
def pinnedMainResolution (svc : Service) : EntityResolution :=
  { action := "use_existing",
    entity := { name := svc.main_person_name, entity_type := "person",
                confidence := 1, context := "Main person in the network",
                properties := [] },
    existing_id := svc.main_person_id,
    confidence := some 1,
    reasoning := none }

/-- `_resolve_person_entity` (`note_processor.py:360`): main-person
short-circuit (case-insensitive), exact match, fuzzy search with the
zero/one/many-candidate policy; with many candidates the disambiguation
chain decides, and a reply of the wrong shape reaches the undefined fallback
helper, i.e. raises. -/
def resolve_person_entity (svc : Service) (e : EntityMention)
    (dis : String → LlmReply DisambiguationResult) (st : GraphState) :
    Except PyError EntityResolution :=
  if strLower e.name = strLower svc.main_person_name then
    .ok { action := "use_existing", entity := e,
          existing_id := svc.main_person_id, confidence := some 1,
          reasoning := none }
  else
    match get_person_by_name st e.name with
    | some p =>
      .ok { action := "use_existing", entity := e, existing_id := some p.id,
            confidence := some 1, reasoning := none }
    | none =>
      match search_people st e.name with
      | [] =>
        .ok { action := "create_new", entity := e, existing_id := none,
              confidence := some (mkRat 9 10), reasoning := none }
      | [p] =>
        .ok { action := "use_existing", entity := e, existing_id := some p.id,
              confidence := some (mkRat 8 10), reasoning := none }
      | _ :: _ :: _ =>
        match dis e.name with
        | .parsed d =>
          .ok { action := d.suggested_action, entity := e,
                existing_id := d.selected_candidate_id,
                confidence := some d.confidence,
                reasoning := some d.reasoning }
        | .badShape => .error (.attributeError "_create_fallback_disambiguation")
        | .raised msg => .error (.chainError msg)

/-- `_resolve_company_entity` (`note_processor.py:441`):
exact-match-or-create. -/
def resolve_company_entity (e : EntityMention) (st : GraphState) :
    EntityResolution :=
  match get_company_by_name st e.name with
  | some c =>
    { action := "use_existing", entity := e, existing_id := some c.id,
      confidence := some 1, reasoning := none }
  | none =>
    { action := "create_new", entity := e, existing_id := none,
      confidence := some (mkRat 9 10), reasoning := none }

/-- `_resolve_topic_entity` (`note_processor.py:459`). -/
def resolve_topic_entity (e : EntityMention) (st : GraphState) :
    EntityResolution :=
  match get_topic_by_name st e.name with
  | some t =>
    { action := "use_existing", entity := e, existing_id := some t.id,
      confidence := some 1, reasoning := none }
  | none =>
    { action := "create_new", entity := e, existing_id := none,
      confidence := some (mkRat 9 10), reasoning := none }

/-- `_resolve_event_entity` (`note_processor.py:477`). -/
def resolve_event_entity (e : EntityMention) (st : GraphState) :
    EntityResolution :=
  match get_event_by_name st e.name with
  | some ev =>
    { action := "use_existing", entity := e, existing_id := some ev.id,
      confidence := some 1, reasoning := none }
  | none =>
    { action := "create_new", entity := e, existing_id := none,
      confidence := some (mkRat 9 10), reasoning := none }

/-- `_resolve_location_entity` (`note_processor.py:495`). -/
def resolve_location_entity (e : EntityMention) (st : GraphState) :
    EntityResolution :=
  match get_location_by_city st e.name with
  | some l =>
    { action := "use_existing", entity := e, existing_id := some l.id,
      confidence := some 1, reasoning := none }
  | none =>
    { action := "create_new", entity := e, existing_id := none,
      confidence := some (mkRat 9 10), reasoning := none }

/-- The per-entity dispatch of `_resolve_ambiguous_entities`
(`note_processor.py:342`), including the unsupported-type branch whose dict
carries no confidence or reasoning key. -/
def resolve_one_entity (svc : Service) (e : EntityMention)
    (dis : String → LlmReply DisambiguationResult) (st : GraphState) :
    Except PyError EntityResolution :=
  if e.entity_type = "person" then resolve_person_entity svc e dis st
  else if e.entity_type = "company" then .ok (resolve_company_entity e st)
  else if e.entity_type = "topic" then .ok (resolve_topic_entity e st)
  else if e.entity_type = "event" then .ok (resolve_event_entity e st)
  else if e.entity_type = "location" then .ok (resolve_location_entity e st)
  else
    .ok { action := "create_new", entity := e, existing_id := none,
          confidence := none, reasoning := none }

/-- The entity loop of `_resolve_ambiguous_entities`: each mention is
resolved afresh and written to the map under its name (a repeated name
overwrites the earlier resolution). -/
def resolveEntitiesLoop (svc : Service) (dis : String → LlmReply DisambiguationResult)
    (st : GraphState) : List EntityMention → ResMap → Except PyError ResMap
  | [], m => .ok m
  | e :: rest, m =>
    match resolve_one_entity svc e dis st with
    | .error err => .error err
    | .ok r => resolveEntitiesLoop svc dis st rest (mapSet m e.name r)

/-- `_resolve_ambiguous_entities` (`note_processor.py:324`): seed the pinned
main-person resolution, then resolve every mention. -/
def resolve_ambiguous_entities (svc : Service) (entities : List EntityMention)
    (dis : String → LlmReply DisambiguationResult) (st : GraphState) :
    Except PyError ResMap :=
  resolveEntitiesLoop svc dis st entities
    (mapSet [] svc.main_person_name (pinnedMainResolution svc))

/-- The by-type exact lookup inside `_ensure_entity_exists`
(`note_processor.py:561`), returning the id of the found node. -/
def lookupEntityId (st : GraphState) (etype name : String) : Option String :=
  if etype = "person" then (get_person_by_name st name).map (fun p => p.id)
  else if etype = "company" then (get_company_by_name st name).map (fun c => c.id)
  else if etype = "topic" then (get_topic_by_name st name).map (fun t => t.id)
  else if etype = "event" then (get_event_by_name st name).map (fun e => e.id)
  else if etype = "location" then (get_location_by_city st name).map (fun l => l.id)
  else none

/-- The type-specific constructor calls of
`_create_entity_and_update_resolution` (`note_processor.py:596`); `none` for
an unknown entity type (the method logs and returns `None`). -/
def createByType (st : GraphState) (e : EntityMention) :
    Option (String × GraphState) :=
  if e.entity_type = "person" then
    let (p, st2) := create_person st e.name none "AI Note Processing" "active"
      ("Created from note: " ++ e.context) "agent_suggestion"
    some (p.id, st2)
  else if e.entity_type = "company" then
    let (c, st2) := create_company st e.name
    some (c.id, st2)
  else if e.entity_type = "topic" then
    let (t, st2) := create_topic st e.name
    some (t.id, st2)
  else if e.entity_type = "event" then
    let (ev, st2) := create_event st e.name
    some (ev.id, st2)
  else if e.entity_type = "location" then
    let (l, st2) := create_location st e.name
    some (l.id, st2)
  else none

/-- The in-place mutation of the resolution dict at `note_processor.py:637`:
`existing_id` becomes the new id and `action` becomes `"created"`.  The
resolution object lives in the map under `key`, so the mutation is an
update at that key. -/
def updateResolutionAt (m : ResMap) (key newId : String) : ResMap :=
  match m with
  | [] => []
  | p :: rest =>
    if p.1 = key then
      (p.1, { p.2 with existing_id := some newId, action := "created" }) :: rest
    else p :: updateResolutionAt rest key newId

/-- `_create_entity_and_update_resolution` (`note_processor.py:593`). -/
def create_entity_and_update_resolution (key : String) (e : EntityMention)
    (m : ResMap) (st : GraphState) : Option String × ResMap × GraphState :=
  match createByType st e with
  | some (newId, st2) => (some newId, updateResolutionAt m key newId, st2)
  | none => (none, m, st)

/-- `_ensure_entity_exists` (`note_processor.py:552`), keyed by the name
under which the caller fetched the resolution object.  Any action other
than `use_existing`/`create_new` (in particular `"created"` after an earlier
create, and `"ask_user"`) falls through to `None`.  The `none`-key case is a
modelling guard: callers only pass keys present in the map. -/
def ensure_entity_exists (key : String) (m : ResMap) (st : GraphState) :
    Option String × ResMap × GraphState :=
  match mapGet m key with
  | none => (none, m, st)
  | some r =>
    if r.action = "use_existing" then
      if strOptFalsy r.existing_id then
        create_entity_and_update_resolution key r.entity m st
      else
        match lookupEntityId st r.entity.entity_type r.entity.name with
        | some i => (some i, m, st)
        | none => create_entity_and_update_resolution key r.entity m st
    else if r.action = "create_new" then
      if strOptFalsy r.existing_id then
        create_entity_and_update_resolution key r.entity m st
      else (r.existing_id, m, st)
    else (none, m, st)

/-- A validated relationship (`note_processor.py:539`): both original names
plus the two resolved ids, appended only when both ids are truthy. -/
structure ValidatedRelationship where
  from_entity : String
  to_entity : String
  from_id : String
  to_id : String
  relationship_type : String
  strength : Option Int
  properties : PyDict
  context : String
deriving DecidableEq, Repr

/-- The pre-materialization pass of `_validate_relationships`
(`note_processor.py:518`): force creation for every resolution still marked
`create_new` without an id, iterating the map keys in insertion order. -/
def prematerialize : List String → ResMap → GraphState → ResMap × GraphState
  | [], m, st => (m, st)
  | k :: ks, m, st =>
    match mapGet m k with
    | some r =>
      if r.action = "create_new" && strOptFalsy r.existing_id then
        prematerialize ks (ensure_entity_exists k m st).2.1
          (ensure_entity_exists k m st).2.2
      else prematerialize ks m st
    | none => prematerialize ks m st

/-- The relationship loop of `_validate_relationships`
(`note_processor.py:522`): skip when either endpoint name is absent from the
map, resolve both sides through ensure-exists, skip when either id is falsy,
otherwise emit the validated record. -/
def validateRelsLoop : List RelationshipMention → ResMap → GraphState →
    List ValidatedRelationship → List ValidatedRelationship × ResMap × GraphState
  | [], m, st, acc => (acc, m, st)
  | rel :: rest, m, st, acc =>
    if (mapGet m rel.from_entity).isNone || (mapGet m rel.to_entity).isNone then
      validateRelsLoop rest m st acc
    else
      let res1 := ensure_entity_exists rel.from_entity m st
      let res2 := ensure_entity_exists rel.to_entity res1.2.1 res1.2.2
      match res1.1, res2.1 with
      | some fi, some ti =>
        if fi = "" || ti = "" then validateRelsLoop rest res2.2.1 res2.2.2 acc
        else
          validateRelsLoop rest res2.2.1 res2.2.2
            (acc ++ [{ from_entity := rel.from_entity,
                       to_entity := rel.to_entity, from_id := fi, to_id := ti,
                       relationship_type := rel.relationship_type,
                       strength := rel.strength,
                       properties := rel.properties, context := rel.context }])
      | _, _ => validateRelsLoop rest res2.2.1 res2.2.2 acc

/-- `_validate_relationships` (`note_processor.py:513`). -/
def validate_relationships (rels : List RelationshipMention) (m : ResMap)
    (st : GraphState) : List ValidatedRelationship × ResMap × GraphState :=
  let pre := prematerialize (m.map (fun p => p.1)) m st
  validateRelsLoop rels pre.1 pre.2 []

/-- One entry of the created-entities report (`note_processor.py:665`). -/
structure ReportEntry where
  name : String
  id : Option String
  action : String
deriving DecidableEq, Repr

/-- One relationship entry of the report (`note_processor.py:732`); the
action is always the literal `"created"`. -/
structure RelReportEntry where
  fromName : String
  toName : String
  rtype : String
  action : String
deriving DecidableEq, Repr

/-- The `created_entities` summary (`note_processor.py:649`). -/
structure CreatedReport where
  people : List ReportEntry
  companies : List ReportEntry
  topics : List ReportEntry
  events : List ReportEntry
  locations : List ReportEntry
  relationships : List RelReportEntry
deriving DecidableEq, Repr

/-- The empty report. -/
def emptyReport : CreatedReport :=
  { people := [], companies := [], topics := [], events := [],
    locations := [], relationships := [] }

/-- The entity-logging loop body of `_create_graph_entities`
(`note_processor.py:659`): bucket one resolution by its entity type; an
unrecognized type falls through the `elif` chain and contributes nothing. -/
def reportEntityStep (rep : CreatedReport) (kv : String × EntityResolution) :
    CreatedReport :=
  let r := kv.2
  let entry : ReportEntry :=
    { name := r.entity.name, id := r.existing_id, action := r.action }
  if r.entity.entity_type = "person" then
    { rep with people := rep.people ++ [entry] }
  else if r.entity.entity_type = "company" then
    { rep with companies := rep.companies ++ [entry] }
  else if r.entity.entity_type = "topic" then
    { rep with topics := rep.topics ++ [entry] }
  else if r.entity.entity_type = "event" then
    { rep with events := rep.events ++ [entry] }
  else if r.entity.entity_type = "location" then
    { rep with locations := rep.locations ++ [entry] }
  else rep

/-- The third argument of the `KNOWS` store call (`note_processor.py:717`):
`rel.get("strength", 3)`.  The validated dict always carries the key, so the
default `3` is unreachable and a missing mention strength arrives as
`None`. -/
def knowsThirdArg (rel : ValidatedRelationship) : PyVal :=
  match rel.strength with
  | some n => .vInt n
  | none => .vNone

/-- The fourth argument of the `KNOWS` store call (`note_processor.py:718`):
`rel.get("properties", {}).get("type", "acquaintance")`. -/
def knowsFourthArg (rel : ValidatedRelationship) : PyVal :=
  pyGet rel.properties "type" (.vStr "acquaintance")

/-- The role argument of the `WORKS_AT` store call
(`note_processor.py:707`). -/
def worksAtRoleArg (rel : ValidatedRelationship) : PyVal :=
  pyGet rel.properties "role" (.vStr "Unknown")

/-- The relationship loop body of `_create_graph_entities`
(`note_processor.py:696`): dispatch on the relationship type string (an
unrecognized type performs no store call), then record the summary entry;
the surrounding `try` catches a raising link call, skipping the entry. -/
def commitRelStep (st : GraphState) (rep : CreatedReport)
    (rel : ValidatedRelationship) : GraphState × CreatedReport :=
  let call : Option (Bool × GraphState) :=
    if rel.relationship_type = "WORKS_AT" then
      link_person_to_company st rel.from_id rel.to_id (worksAtRoleArg rel)
    else if rel.relationship_type = "KNOWS" then
      create_person_relationship st rel.from_id rel.to_id (knowsThirdArg rel)
        (knowsFourthArg rel)
    else if rel.relationship_type = "INTERESTED_IN" then
      link_person_to_topic st rel.from_id rel.to_id
    else if rel.relationship_type = "ATTENDED" then
      link_person_to_event st rel.from_id rel.to_id
    else some (true, st)
  match call with
  | none => (st, rep)
  | some (_, st2) =>
    (st2, { rep with relationships := rep.relationships ++
        [{ fromName := rel.from_entity, toName := rel.to_entity,
           rtype := rel.relationship_type, action := "created" }] })

/-- The relationship loop of `_create_graph_entities`. -/
def commitRelsLoop : List ValidatedRelationship → GraphState → CreatedReport →
    GraphState × CreatedReport
  | [], st, rep => (st, rep)
  | rel :: rest, st, rep =>
    let step := commitRelStep st rep rel
    commitRelsLoop rest step.1 step.2

/-- The entity-logging loop of `_create_graph_entities`. -/
def reportEntitiesLoop : ResMap → CreatedReport → CreatedReport
  | [], rep => rep
  | kv :: rest, rep => reportEntitiesLoop rest (reportEntityStep rep kv)

/-- `_create_graph_entities` (`note_processor.py:647`): build the
created-entities summary from every resolution, then apply the validated
relationships to the store. -/
def create_graph_entities (m : ResMap) (vrels : List ValidatedRelationship)
    (st : GraphState) : CreatedReport × GraphState :=
  let rep0 := reportEntitiesLoop m emptyReport
  let fin := commitRelsLoop vrels st rep0
  (fin.2, fin.1)

/-- The result dict of `process_note_advanced` (`note_processor.py:271`). -/
structure ProcResult where
  analysis : NoteAnalysis
  resolved_entities : ResMap
  validated_relationships : List ValidatedRelationship
  created_entities : CreatedReport
  main_person_id : Option String
deriving DecidableEq, Repr

/-- `process_note_advanced` (`note_processor.py:218`): raise a configuration
error when the extraction chain is unconfigured (before any store
interaction), set up the main person, then run
extraction → resolution → validation → commit.  The outer `except` logs and
re-raises, so every error propagates to the caller together with whatever
state mutations already happened. -/
def process_note_advanced (svc : Service) (extractReply : LlmReply NoteAnalysis)
    (dis : String → LlmReply DisambiguationResult) (st : GraphState) :
    Except PyError ProcResult × Service × GraphState :=
  if svc.configured then
    let setup := ensure_main_person_exists svc st
    let svc1 := setup.1
    let st1 := setup.2
    match extractReply with
    | .raised msg => (.error (.chainError msg), svc1, st1)
    | .badShape => (.error (.attributeError "_create_fallback_analysis"), svc1, st1)
    | .parsed analysis =>
      match resolve_ambiguous_entities svc1 analysis.entities dis st1 with
      | .error e => (.error e, svc1, st1)
      | .ok resolved =>
        let val := validate_relationships analysis.relationships resolved st1
        let commit := create_graph_entities val.2.1 val.1 val.2.2
        (.ok { analysis := analysis, resolved_entities := val.2.1,
               validated_relationships := val.1,
               created_entities := commit.1,
               main_person_id := svc1.main_person_id },
         svc1, commit.2)
  else (.error .configError, svc, st)

/-- Whether an entity-type string is one of the five kinds the pipeline's
type dispatches recognize. -/
def knownType (t : String) : Bool :=
  t = "person" || t = "company" || t = "topic" || t = "event" || t = "location"

/-! ### Concrete fixtures used by counterexamples and witnesses -/

/-- A stored person with the given id and name and default fields. -/
def stP (i n : String) : StoredPerson :=
  { id := i, name := n, email := none, sourceOfContact := "System",
    status := "active", notes := "", dataSource := "manual_entry" }

/-- The empty graph store. -/
def stEmpty : GraphState :=
  { people := [], companies := [], topics := [], events := [], locations := [],
    knows := [], worksAt := [], interestedIn := [], attended := [],
    nextId := 0, createLog := [] }

/-- A store holding persons Alice, Bob and Carol. -/
def stABC : GraphState :=
  { stEmpty with people := [stP "pa" "Alice", stP "pb" "Bob", stP "pc" "Carol"] }

/-- A store holding Alice and two fuzzy matches for the name Bob. -/
def stBobs : GraphState :=
  { stEmpty with
    people := [stP "pa" "Alice", stP "pb1" "Bobby", stP "pb2" "Bobson"] }

/-- A store holding Alice and one fuzzy match for the name Bob. -/
def stBobby : GraphState :=
  { stEmpty with people := [stP "pa" "Alice", stP "pb" "Bobby"] }

/-- A store holding only Alice. -/
def stAlice1 : GraphState :=
  { stEmpty with people := [stP "pa" "Alice"] }

/-- A configured service session with Alice pinned as the main person. -/
def svcA : Service :=
  { configured := true, main_person_name := "Alice", main_person_id := some "pa" }

/-- A person entity mention with default ancillary fields. -/
def mkPerson (n : String) : EntityMention :=
  { name := n, entity_type := "person", confidence := mkRat 9 10, context := "ctx",
    properties := [] }

/-- A disambiguation oracle whose replies never parse. -/
def disNone : String → LlmReply DisambiguationResult := fun _ => .badShape

/-- An analysis with two `KNOWS` mentions: one with an explicit strength and
sub-type, one with neither. -/
def c1analysis : NoteAnalysis :=
  { entities := [mkPerson "Bob", mkPerson "Carol"],
    relationships :=
      [ { from_entity := "Alice", to_entity := "Bob",
          relationship_type := "KNOWS", strength := some 4, context := "c",
          properties := [("type", .vStr "friend")] },
        { from_entity := "Alice", to_entity := "Carol",
          relationship_type := "KNOWS", strength := none, context := "c",
          properties := [] } ],
    main_person_context := none, ambiguous_entities := [],
    suggested_actions := [], confidence_score := mkRat 8 10,
    processing_notes := [] }

/-- An analysis with a single ambiguous person mention. -/
def c2analysis : NoteAnalysis :=
  { entities := [mkPerson "Bob"], relationships := [],
    main_person_context := none, ambiguous_entities := [],
    suggested_actions := [], confidence_score := mkRat 8 10,
    processing_notes := [] }

/-- An analysis mentioning the main person in a different casing, with a
relationship forcing the mention through ensure-exists. -/
def c3analysis : NoteAnalysis :=
  { entities := [mkPerson "ALICE"],
    relationships :=
      [ { from_entity := "ALICE", to_entity := "ALICE",
          relationship_type := "KNOWS", strength := none, context := "c",
          properties := [] } ],
    main_person_context := none, ambiguous_entities := [],
    suggested_actions := [], confidence_score := mkRat 8 10,
    processing_notes := [] }

/-- The run for the case-variant main-person counterexample. -/
def c3run : Except PyError ProcResult × Service × GraphState :=
  process_note_advanced svcA (.parsed c3analysis) disNone stAlice1

/-- A company mention sharing the name of a person mention. -/
def fixBobCompany : EntityMention :=
  { name := "Bob", entity_type := "company", confidence := mkRat 9 10,
    context := "ctx", properties := [] }

/-- A mention with an entity type outside the five known kinds. -/
def fixVehicle : EntityMention :=
  { name := "Batmobile", entity_type := "vehicle", confidence := 1,
    context := "ctx", properties := [] }

/-- A resolution map holding only an unsupported-type resolution. -/
def fixC7map : ResMap :=
  [("Batmobile",
    { action := "create_new", entity := fixVehicle, existing_id := none,
      confidence := none, reasoning := none })]

/-- An analysis with no entities and no relationships. -/
def c4wanalysis : NoteAnalysis :=
  { entities := [], relationships := [], main_person_context := none,
    ambiguous_entities := [], suggested_actions := [],
    confidence_score := 1, processing_notes := [] }

/-- The result of processing the empty analysis for Alice on `stAlice1`. -/
def c4wres : ProcResult :=
  { analysis := c4wanalysis,
    resolved_entities := [("Alice", pinnedMainResolution svcA)],
    validated_relationships := [],
    created_entities :=
      { people := [{ name := "Alice", id := some "pa",
                     action := "use_existing" }],
        companies := [], topics := [], events := [], locations := [],
        relationships := [] },
    main_person_id := some "pa" }

/-- A fresh configured session for Alice with no cached main-person id. -/
def c3wsvc : Service :=
  { configured := true, main_person_name := "Alice", main_person_id := none }

/-- A store whose only person is "Alice Smith", a fuzzy match for the
supplied name "Ali". -/
def c10st : GraphState :=
  { stEmpty with people := [stP "p1" "Alice Smith"] }

/-- A company mention used by the stale-id witness. -/
def c6mention : EntityMention :=
  { name := "Google", entity_type := "company", confidence := 1,
    context := "ctx", properties := [] }

/-- A `use_existing` resolution for a mention and a concrete id. -/
def resUse (e : EntityMention) (i : String) : EntityResolution :=
  { action := "use_existing", entity := e, existing_id := some i,
    confidence := some 1, reasoning := none }

/-- A map resolving "Google" to a stale id that no company in the store
carries. -/
def c6map : ResMap :=
  [("Google", resUse c6mention "zz")]

/-- A two-person resolution map resolving Alice and Bob to store ids. -/
def c5map : ResMap :=
  [("Alice", resUse (mkPerson "Alice") "pa"),
   ("Bob", resUse (mkPerson "Bob") "pb")]

/-- A single `KNOWS` relationship mention between Alice and Bob. -/
def c5rels : List RelationshipMention :=
  [{ from_entity := "Alice", to_entity := "Bob", relationship_type := "KNOWS",
     strength := some 2, context := "c", properties := [] }]

/-- The validated relationship the C5 witness run emits. -/
def c5vrel : ValidatedRelationship :=
  { from_entity := "Alice", to_entity := "Bob", from_id := "pa",
    to_id := "pb", relationship_type := "KNOWS", strength := some 2,
    properties := [], context := "c" }

deriving instance DecidableEq for Except

/-! ### Invariant definitions used by the universal theorems -/

/-- Every resolution in the map is stored under its own mention's name
(true by construction of the resolver and preserved by commit-time
mutation). -/
def nameAgree (m : ResMap) : Prop :=
  ∀ p ∈ m, p.2.entity.name = p.1

/-- The main-person invariant threaded through validation: the cached id is
truthy, the map holds a `use_existing` person resolution for the main name
carrying that id, and the store holds a person with that exact name. -/
def mainGood (nm : String) (mid : Option String) (m : ResMap)
    (st : GraphState) : Prop :=
  strOptFalsy mid = false ∧
  (∃ r, mapGet m nm = some r ∧ r.action = "use_existing" ∧
    r.existing_id = mid ∧ r.entity.entity_type = "person" ∧
    r.entity.name = nm) ∧
  (∃ p, p ∈ st.people ∧ p.name = nm)

/-- The create-count invariant threaded through validation: relative to the
phase-start state `base`, at most one create call has been logged per entity
name, and a logged name's resolution has been switched to `"created"` (which
makes any further ensure-exists call on it return `None` without
creating). -/
def phaseGood (base : GraphState) (m : ResMap) (st : GraphState) : Prop :=
  nameAgree m ∧
  ∃ Δ, st.createLog = base.createLog ++ Δ ∧
    (∀ n, Δ.countP (fun c => c.2 = n) ≤ 1) ∧
    (∀ n, 0 < Δ.countP (fun c => c.2 = n) →
      ∃ r, mapGet m n = some r ∧ r.action = "created")

/-- Number of entries with a given name in a report-entry list. -/
def countNamed (l : List ReportEntry) (k : String) : Nat :=
  match l with
  | [] => 0
  | en :: rest => (if en.name = k then 1 else 0) + countNamed rest k

/-- Number of entries with name `k` across all five entity buckets of the
report. -/
def entryCount (rep : CreatedReport) (k : String) : Nat :=
  countNamed rep.people k + countNamed rep.companies k +
    countNamed rep.topics k + countNamed rep.events k +
    countNamed rep.locations k

/-- Number of resolutions in the map whose mention is named `k` and has a
known entity type (the resolutions the report loop buckets). -/
def countRes (m : ResMap) (k : String) : Nat :=
  match m with
  | [] => 0
  | kv :: rest =>
    (if kv.2.entity.name = k ∧ knownType kv.2.entity.entity_type = true
     then 1 else 0) + countRes rest k

/-- The report entry the logging loop would write for one resolution. -/
def entryOf (kv : String × EntityResolution) : ReportEntry :=
  { name := kv.2.entity.name, id := kv.2.existing_id, action := kv.2.action }

/-- The report bucket for an entity-type string (empty for an unknown
type). -/
def bucketFor (rep : CreatedReport) (t : String) : List ReportEntry :=
  if t = "person" then rep.people
  else if t = "company" then rep.companies
  else if t = "topic" then rep.topics
  else if t = "event" then rep.events
  else if t = "location" then rep.locations
  else []

/-! ### Helper lemmas about the map operations and the store -/

theorem mapGet_cons (p : String × EntityResolution) (rest : ResMap) (k : String) :
    mapGet (p :: rest) k = if p.1 = k then some p.2 else mapGet rest k := rfl

theorem mapSet_cons (p : String × EntityResolution) (rest : ResMap) (k : String)
    (v : EntityResolution) :
    mapSet (p :: rest) k v =
      if p.1 = k then (p.1, v) :: rest else p :: mapSet rest k v := rfl

theorem updAt_cons (p : String × EntityResolution) (rest : ResMap) (k i : String) :
    updateResolutionAt (p :: rest) k i =
      if p.1 = k then
        (p.1, { p.2 with existing_id := some i, action := "created" }) :: rest
      else p :: updateResolutionAt rest k i := rfl

theorem mapGet_set_self (m : ResMap) (k : String) (v : EntityResolution) :
    mapGet (mapSet m k v) k = some v := by
  induction m with
  | nil => simp [mapSet, mapGet]
  | cons p rest ih =>
    rw [mapSet_cons]
    by_cases h : p.1 = k
    · rw [if_pos h, mapGet_cons, if_pos h]
    · rw [if_neg h, mapGet_cons, if_neg h]
      exact ih

theorem mapGet_set_ne (m : ResMap) (k' k : String) (v : EntityResolution)
    (h : k' ≠ k) : mapGet (mapSet m k' v) k = mapGet m k := by
  induction m with
  | nil => simp [mapSet, mapGet, h]
  | cons p rest ih =>
    rw [mapSet_cons]
    by_cases hp : p.1 = k'
    · have hpk : ¬ p.1 = k := by rw [hp]; exact h
      rw [if_pos hp, mapGet_cons, if_neg hpk, mapGet_cons, if_neg hpk]
    · rw [if_neg hp, mapGet_cons, mapGet_cons]
      by_cases hk : p.1 = k
      · rw [if_pos hk, if_pos hk]
      · rw [if_neg hk, if_neg hk]
        exact ih

theorem mem_keys_mapSet (m : ResMap) (k a : String) (v : EntityResolution) :
    a ∈ (mapSet m k v).map Prod.fst ↔ a ∈ m.map Prod.fst ∨ a = k := by
  induction m with
  | nil => simp [mapSet]
  | cons p rest ih =>
    rw [mapSet_cons]
    by_cases hp : p.1 = k
    · rw [if_pos hp]
      simp only [List.map_cons, List.mem_cons]
      constructor
      · exact fun h => Or.inl h
      · rintro ((h | h) | h)
        · exact Or.inl h
        · exact Or.inr h
        · exact Or.inl (by rw [hp]; exact h)
    · rw [if_neg hp]
      simp only [List.map_cons, List.mem_cons, ih]
      tauto

theorem nodup_keys_mapSet (m : ResMap) (k : String) (v : EntityResolution)
    (h : (m.map Prod.fst).Nodup) : ((mapSet m k v).map Prod.fst).Nodup := by
  induction m with
  | nil => simp [mapSet]
  | cons p rest ih =>
    rw [mapSet_cons]
    by_cases hp : p.1 = k
    · rw [if_pos hp]
      simpa using h
    · rw [if_neg hp]
      simp only [List.map_cons, List.nodup_cons] at h ⊢
      constructor
      · intro hmem
        rcases (mem_keys_mapSet rest k p.1 v).mp hmem with h1 | h1
        · exact h.1 h1
        · exact hp h1
      · exact ih h.2

theorem keys_updateResolutionAt (m : ResMap) (k i : String) :
    (updateResolutionAt m k i).map Prod.fst = m.map Prod.fst := by
  induction m with
  | nil => rfl
  | cons p rest ih =>
    rw [updAt_cons]
    by_cases hp : p.1 = k
    · rw [if_pos hp]
      simp
    · rw [if_neg hp]
      simpa using ih

theorem mapGet_updateResolutionAt_self (m : ResMap) (k i : String)
    (r : EntityResolution) (h : mapGet m k = some r) :
    mapGet (updateResolutionAt m k i) k =
      some { r with existing_id := some i, action := "created" } := by
  induction m with
  | nil => simp [mapGet] at h
  | cons p rest ih =>
    rw [mapGet_cons] at h
    rw [updAt_cons]
    by_cases hp : p.1 = k
    · rw [if_pos hp] at h
      injection h with h2
      rw [if_pos hp, mapGet_cons, if_pos hp, h2]
    · rw [if_neg hp] at h
      rw [if_neg hp, mapGet_cons, if_neg hp]
      exact ih h

theorem mapGet_updateResolutionAt_ne (m : ResMap) (ku kr i : String)
    (h : kr ≠ ku) :
    mapGet (updateResolutionAt m ku i) kr = mapGet m kr := by
  induction m with
  | nil => rfl
  | cons p rest ih =>
    rw [updAt_cons]
    by_cases hp : p.1 = ku
    · have hpk : ¬ p.1 = kr := by rw [hp]; exact fun hh => h hh.symm
      rw [if_pos hp, mapGet_cons, if_neg hpk, mapGet_cons, if_neg hpk]
    · rw [if_neg hp, mapGet_cons, mapGet_cons]
      by_cases hk : p.1 = kr
      · rw [if_pos hk, if_pos hk]
      · rw [if_neg hk, if_neg hk]
        exact ih

theorem mapGet_mem (m : ResMap) (k : String) (r : EntityResolution)
    (h : mapGet m k = some r) : (k, r) ∈ m := by
  induction m with
  | nil => simp [mapGet] at h
  | cons p rest ih =>
    obtain ⟨a, b⟩ := p
    rw [mapGet_cons] at h
    by_cases hp : a = k
    · rw [if_pos hp] at h
      injection h with h2
      rw [← hp, ← h2]
      exact List.mem_cons_self _ _
    · rw [if_neg hp] at h
      exact List.mem_cons_of_mem _ (ih h)

theorem mapGet_isSome_iff (m : ResMap) (k : String) :
    (mapGet m k).isSome ↔ k ∈ m.map Prod.fst := by
  induction m with
  | nil => simp [mapGet]
  | cons p rest ih =>
    rw [mapGet_cons]
    by_cases hp : p.1 = k
    · simp [hp]
    · rw [if_neg hp]
      simp only [List.map_cons, List.mem_cons, ih]
      constructor
      · exact fun hh => Or.inr hh
      · rintro (hh | hh)
        · exact absurd hh.symm hp
        · exact hh

theorem nameAgree_mapSet (m : ResMap) (k : String) (v : EntityResolution)
    (hm : nameAgree m) (hv : v.entity.name = k) : nameAgree (mapSet m k v) := by
  induction m with
  | nil =>
    intro p hp
    simp only [mapSet, List.mem_singleton] at hp
    rw [hp]
    exact hv
  | cons q rest ih =>
    intro p hp
    rw [mapSet_cons] at hp
    by_cases hq : q.1 = k
    · rw [if_pos hq] at hp
      rcases List.mem_cons.mp hp with hp | hp
      · rw [hp]
        show v.entity.name = q.1
        rw [hq]
        exact hv
      · exact hm _ (List.mem_cons_of_mem _ hp)
    · rw [if_neg hq] at hp
      rcases List.mem_cons.mp hp with hp | hp
      · rw [hp]
        exact hm q (List.mem_cons_self _ _)
      · exact ih (fun x hx => hm x (List.mem_cons_of_mem _ hx)) p hp

theorem nameAgree_updateResolutionAt (m : ResMap) (k i : String)
    (hm : nameAgree m) : nameAgree (updateResolutionAt m k i) := by
  induction m with
  | nil =>
    intro p hp
    simp [updateResolutionAt] at hp
  | cons q rest ih =>
    intro p hp
    rw [updAt_cons] at hp
    by_cases hq : q.1 = k
    · rw [if_pos hq] at hp
      rcases List.mem_cons.mp hp with hp | hp
      · rw [hp]
        exact hm q (List.mem_cons_self _ _)
      · exact hm _ (List.mem_cons_of_mem _ hp)
    · rw [if_neg hq] at hp
      rcases List.mem_cons.mp hp with hp | hp
      · rw [hp]
        exact hm q (List.mem_cons_self _ _)
      · exact ih (fun x hx => hm x (List.mem_cons_of_mem _ hx)) p hp

theorem firstSuch_eq_some {α : Type} (p : α → Bool) (l : List α) (a : α)
    (h : firstSuch p l = some a) : a ∈ l ∧ p a = true := by
  induction l with
  | nil => simp [firstSuch] at h
  | cons b rest ih =>
    by_cases hb : p b
    · simp only [firstSuch, if_pos hb] at h
      cases h
      exact ⟨List.mem_cons_self _ _, hb⟩
    · simp only [firstSuch, if_neg hb] at h
      obtain ⟨h1, h2⟩ := ih h
      exact ⟨List.mem_cons_of_mem _ h1, h2⟩

theorem firstSuch_isSome {α : Type} (p : α → Bool) (l : List α) (a : α)
    (ha : a ∈ l) (hp : p a = true) : (firstSuch p l).isSome := by
  induction l with
  | nil => simp at ha
  | cons b rest ih =>
    by_cases hb : p b
    · simp [firstSuch, hb]
    · rcases List.mem_cons.mp ha with h | h
      · rw [← h] at hb
        rw [hp] at hb
        simp at hb
      · simp only [firstSuch, if_neg hb]
        exact ih h

theorem mem_insertByLe (le : StoredPerson → StoredPerson → Bool)
    (a x : StoredPerson) (l : List StoredPerson)
    (h : x ∈ insertByLe le a l) : x = a ∨ x ∈ l := by
  induction l with
  | nil =>
    simp only [insertByLe, List.mem_singleton] at h
    exact Or.inl h
  | cons b rest ih =>
    rw [show insertByLe le a (b :: rest) =
        if le b a then b :: insertByLe le a rest else a :: b :: rest from rfl] at h
    by_cases hb : le b a
    · rw [if_pos hb] at h
      rcases List.mem_cons.mp h with h | h
      · exact Or.inr (List.mem_cons.mpr (Or.inl h))
      · rcases ih h with h1 | h1
        · exact Or.inl h1
        · exact Or.inr (List.mem_cons_of_mem _ h1)
    · rw [if_neg hb] at h
      rcases List.mem_cons.mp h with h | h
      · exact Or.inl h
      · exact Or.inr h

theorem mem_sortByLe (le : StoredPerson → StoredPerson → Bool)
    (x : StoredPerson) (l : List StoredPerson)
    (h : x ∈ sortByLe le l) : x ∈ l := by
  induction l with
  | nil => exact absurd h (List.not_mem_nil x)
  | cons b rest ih =>
    rcases mem_insertByLe le b x _ h with h1 | h1
    · rw [h1]
      exact List.mem_cons_self _ _
    · exact List.mem_cons_of_mem _ (ih h1)

theorem mem_search_people (st : GraphState) (q : String) (x : StoredPerson)
    (h : x ∈ search_people st q) : x ∈ st.people :=
  List.mem_of_mem_filter (mem_sortByLe _ x _ h)

theorem createByType_cases (st : GraphState) (e : EntityMention) :
    (knownType e.entity_type = false ∧ createByType st e = none) ∨
    ∃ st2, createByType st e = some (freshId st, st2) ∧
      st2.createLog = st.createLog ++ [(e.entity_type, e.name)] ∧
      (∃ ps, st2.people = st.people ++ ps) := by
  unfold createByType
  by_cases h1 : e.entity_type = "person"
  · right
    rw [if_pos h1]
    exact ⟨_, rfl, by rw [h1], ⟨_, rfl⟩⟩
  · rw [if_neg h1]
    by_cases h2 : e.entity_type = "company"
    · right
      rw [if_pos h2]
      exact ⟨_, rfl, by rw [h2], ⟨[], by simp [create_company]⟩⟩
    · rw [if_neg h2]
      by_cases h3 : e.entity_type = "topic"
      · right
        rw [if_pos h3]
        exact ⟨_, rfl, by rw [h3], ⟨[], by simp [create_topic]⟩⟩
      · rw [if_neg h3]
        by_cases h4 : e.entity_type = "event"
        · right
          rw [if_pos h4]
          exact ⟨_, rfl, by rw [h4], ⟨[], by simp [create_event]⟩⟩
        · rw [if_neg h4]
          by_cases h5 : e.entity_type = "location"
          · right
            rw [if_pos h5]
            exact ⟨_, rfl, by rw [h5], ⟨[], by simp [create_location]⟩⟩
          · rw [if_neg h5]
            exact Or.inl ⟨by simp [knownType, h1, h2, h3, h4, h5], rfl⟩

theorem ensure_shape (k : String) (m : ResMap) (st : GraphState) :
    ((ensure_entity_exists k m st).2.1 = m ∨
      (ensure_entity_exists k m st).2.1 = updateResolutionAt m k (freshId st)) ∧
    (∃ ps, (ensure_entity_exists k m st).2.2.people = st.people ++ ps) ∧
    (∃ cs, (ensure_entity_exists k m st).2.2.createLog = st.createLog ++ cs) := by
  unfold ensure_entity_exists
  cases hg : mapGet m k with
  | none => exact ⟨Or.inl rfl, ⟨[], by simp⟩, ⟨[], by simp⟩⟩
  | some r =>
    have hcreate :
        ((create_entity_and_update_resolution k r.entity m st).2.1 = m ∨
          (create_entity_and_update_resolution k r.entity m st).2.1 =
            updateResolutionAt m k (freshId st)) ∧
        (∃ ps, (create_entity_and_update_resolution k r.entity m st).2.2.people =
          st.people ++ ps) ∧
        (∃ cs, (create_entity_and_update_resolution k r.entity m st).2.2.createLog =
          st.createLog ++ cs) := by
      unfold create_entity_and_update_resolution
      rcases createByType_cases st r.entity with ⟨_, hc⟩ | ⟨st2, hc, hlog, ⟨ps, hppl⟩⟩
      · rw [hc]
        exact ⟨Or.inl rfl, ⟨[], by simp⟩, ⟨[], by simp⟩⟩
      · rw [hc]
        exact ⟨Or.inr rfl, ⟨ps, hppl⟩, ⟨_, hlog⟩⟩
    dsimp only
    by_cases ha : r.action = "use_existing"
    · rw [if_pos ha]
      by_cases hf : strOptFalsy r.existing_id = true
      · rw [if_pos hf]
        exact hcreate
      · rw [if_neg hf]
        cases hl : lookupEntityId st r.entity.entity_type r.entity.name with
        | some i => exact ⟨Or.inl rfl, ⟨[], by simp⟩, ⟨[], by simp⟩⟩
        | none => exact hcreate
    · rw [if_neg ha]
      by_cases hc2 : r.action = "create_new"
      · rw [if_pos hc2]
        by_cases hf : strOptFalsy r.existing_id = true
        · rw [if_pos hf]
          exact hcreate
        · rw [if_neg hf]
          exact ⟨Or.inl rfl, ⟨[], by simp⟩, ⟨[], by simp⟩⟩
      · rw [if_neg hc2]
        exact ⟨Or.inl rfl, ⟨[], by simp⟩, ⟨[], by simp⟩⟩

theorem ensure_keys (k : String) (m : ResMap) (st : GraphState) :
    (ensure_entity_exists k m st).2.1.map Prod.fst = m.map Prod.fst := by
  rcases (ensure_shape k m st).1 with h | h
  · rw [h]
  · rw [h, keys_updateResolutionAt]

theorem prematerialize_preserve (P : ResMap → GraphState → Prop)
    (hP : ∀ k m st, P m st →
      P (ensure_entity_exists k m st).2.1 (ensure_entity_exists k m st).2.2)
    (ks : List String) :
    ∀ m st, P m st → P (prematerialize ks m st).1 (prematerialize ks m st).2 := by
  induction ks with
  | nil => intro m st h; exact h
  | cons k ks ih =>
    intro m st h
    simp only [prematerialize]
    cases hg : mapGet m k with
    | none => exact ih m st h
    | some r =>
      dsimp only
      by_cases hc : r.action = "create_new" && strOptFalsy r.existing_id
      · rw [if_pos hc]
        exact ih _ _ (hP k m st h)
      · rw [if_neg hc]
        exact ih m st h

theorem validateRelsLoop_preserve (P : ResMap → GraphState → Prop)
    (hP : ∀ k m st, P m st →
      P (ensure_entity_exists k m st).2.1 (ensure_entity_exists k m st).2.2)
    (rels : List RelationshipMention) :
    ∀ m st acc, P m st →
      P (validateRelsLoop rels m st acc).2.1 (validateRelsLoop rels m st acc).2.2 := by
  induction rels with
  | nil => intro m st acc h; exact h
  | cons rel rest ih =>
    intro m st acc h
    simp only [validateRelsLoop]
    by_cases h1 : ((mapGet m rel.from_entity).isNone || (mapGet m rel.to_entity).isNone) = true
    · rw [if_pos h1]
      exact ih m st acc h
    · rw [if_neg h1]
      have h2 := hP rel.from_entity m st h
      have h3 := hP rel.to_entity _ _ h2
      cases hf : (ensure_entity_exists rel.from_entity m st).1 with
      | none =>
        cases ht : (ensure_entity_exists rel.to_entity
            (ensure_entity_exists rel.from_entity m st).2.1
            (ensure_entity_exists rel.from_entity m st).2.2).1 with
        | none => exact ih _ _ _ h3
        | some ti => exact ih _ _ _ h3
      | some fi =>
        cases ht : (ensure_entity_exists rel.to_entity
            (ensure_entity_exists rel.from_entity m st).2.1
            (ensure_entity_exists rel.from_entity m st).2.2).1 with
        | none => exact ih _ _ _ h3
        | some ti =>
          dsimp only
          by_cases hz : fi = "" || ti = ""
          · rw [if_pos hz]
            exact ih _ _ _ h3
          · rw [if_neg hz]
            exact ih _ _ _ h3

theorem validate_preserve (P : ResMap → GraphState → Prop)
    (hP : ∀ k m st, P m st →
      P (ensure_entity_exists k m st).2.1 (ensure_entity_exists k m st).2.2)
    (rels : List RelationshipMention) (m : ResMap) (st : GraphState)
    (h : P m st) :
    P (validate_relationships rels m st).2.1
      (validate_relationships rels m st).2.2 :=
  validateRelsLoop_preserve P hP rels _ _ []
    (prematerialize_preserve P hP _ m st h)

theorem validateRelsLoop_sound (R : List RelationshipMention)
    (K : List String) :
    ∀ (rels : List RelationshipMention) (m : ResMap) (st : GraphState)
      (acc : List ValidatedRelationship),
      (∀ r ∈ rels, r ∈ R) → m.map Prod.fst = K →
      (∀ w ∈ acc, w.from_id ≠ "" ∧ w.to_id ≠ "" ∧
        w.from_entity ∈ K ∧ w.to_entity ∈ K ∧
        ∃ rel ∈ R, w.from_entity = rel.from_entity ∧
          w.to_entity = rel.to_entity ∧
          w.relationship_type = rel.relationship_type ∧
          w.strength = rel.strength) →
      ∀ v ∈ (validateRelsLoop rels m st acc).1,
        v.from_id ≠ "" ∧ v.to_id ≠ "" ∧
        v.from_entity ∈ K ∧ v.to_entity ∈ K ∧
        ∃ rel ∈ R, v.from_entity = rel.from_entity ∧
          v.to_entity = rel.to_entity ∧
          v.relationship_type = rel.relationship_type ∧
          v.strength = rel.strength := by
  intro rels
  induction rels with
  | nil =>
    intro m st acc _ _ hacc v hv
    exact hacc v hv
  | cons rel rest ih =>
    intro m st acc hsub hkeys hacc v hv
    simp only [validateRelsLoop] at hv
    by_cases h1 : ((mapGet m rel.from_entity).isNone ||
        (mapGet m rel.to_entity).isNone) = true
    · rw [if_pos h1] at hv
      exact ih m st acc (fun r hr => hsub r (List.mem_cons_of_mem _ hr))
        hkeys hacc v hv
    · rw [if_neg h1] at hv
      have hkeys1 : (ensure_entity_exists rel.from_entity m st).2.1.map
          Prod.fst = K := by
        rw [ensure_keys]
        exact hkeys
      have hkeys2 : (ensure_entity_exists rel.to_entity
          (ensure_entity_exists rel.from_entity m st).2.1
          (ensure_entity_exists rel.from_entity m st).2.2).2.1.map
          Prod.fst = K := by
        rw [ensure_keys]
        exact hkeys1
      have hfm : rel.from_entity ∈ K := by
        rw [← hkeys, ← mapGet_isSome_iff]
        cases hx : mapGet m rel.from_entity with
        | none => rw [hx] at h1; simp at h1
        | some _ => simp
      have htm : rel.to_entity ∈ K := by
        rw [← hkeys, ← mapGet_isSome_iff]
        cases hx : mapGet m rel.to_entity with
        | none => rw [hx] at h1; simp at h1
        | some _ => simp
      cases hof : (ensure_entity_exists rel.from_entity m st).1 with
      | none =>
        rw [hof] at hv
        cases hot : (ensure_entity_exists rel.to_entity
            (ensure_entity_exists rel.from_entity m st).2.1
            (ensure_entity_exists rel.from_entity m st).2.2).1 with
        | none =>
          rw [hot] at hv
          dsimp only at hv
          exact ih _ _ _ (fun r hr => hsub r (List.mem_cons_of_mem _ hr))
            hkeys2 hacc v hv
        | some ti =>
          rw [hot] at hv
          dsimp only at hv
          exact ih _ _ _ (fun r hr => hsub r (List.mem_cons_of_mem _ hr))
            hkeys2 hacc v hv
      | some fi =>
        rw [hof] at hv
        cases hot : (ensure_entity_exists rel.to_entity
            (ensure_entity_exists rel.from_entity m st).2.1
            (ensure_entity_exists rel.from_entity m st).2.2).1 with
        | none =>
          rw [hot] at hv
          dsimp only at hv
          exact ih _ _ _ (fun r hr => hsub r (List.mem_cons_of_mem _ hr))
            hkeys2 hacc v hv
        | some ti =>
          rw [hot] at hv
          dsimp only at hv
          by_cases hz : fi = "" || ti = ""
          · rw [if_pos hz] at hv
            exact ih _ _ _ (fun r hr => hsub r (List.mem_cons_of_mem _ hr))
              hkeys2 hacc v hv
          · rw [if_neg hz] at hv
            have hzn : fi ≠ "" ∧ ti ≠ "" := by
              constructor <;> intro hh <;> exact hz (by simp [hh])
            refine ih _ _ _ (fun r hr => hsub r (List.mem_cons_of_mem _ hr))
              hkeys2 ?_ v hv
            intro w hw
            rcases List.mem_append.mp hw with hw | hw
            · exact hacc w hw
            · rw [List.mem_singleton] at hw
              rw [hw]
              exact ⟨hzn.1, hzn.2, hfm, htm, rel,
                hsub rel (List.mem_cons_self _ _), rfl, rfl, rfl, rfl⟩

/-! ### Claim theorems (concrete counterexamples and direct evaluations) -/

/-- Claim C1 (code bug): `_create_graph_entities` calls
`create_person_relationship(from_id, to_id, strength-value, sub-type-value)`
while the store function declares `(from, to, relationship_type, strength)`
(`people.py:291`), so the mention strength lands in the stored `type`
attribute and the sub-type string in the stored `strength` attribute; and
because the validated dict always carries a `strength` key, `rel.get
("strength", 3)` yields `None` instead of the claimed default 3.  In this
run the edge for the strength-4 "friend" mention is stored with
`type = 4` and `strength = "friend"`, and the default-free mention is
stored with `type = None` and `strength = "acquaintance"`. -/
theorem knows_commit_swaps_strength_and_subtype :
    (process_note_advanced svcA (.parsed c1analysis) disNone stABC).2.2.knows =
      [ { fromId := "pa", toId := "pb", typeAttr := .vInt 4,
          strengthAttr := .vStr "friend" },
        { fromId := "pa", toId := "pc", typeAttr := .vNone,
          strengthAttr := .vStr "acquaintance" } ] ∧
    ((process_note_advanced svcA (.parsed c1analysis) disNone stABC).2.2.knows.map
        (fun e => e.strengthAttr)) ≠ [PyVal.vInt 4, PyVal.vInt 3] := by
  decide

/-- Claim C2 (code bug): when the extraction reply fails to parse as
`NoteAnalysis`, the code calls `self._create_fallback_analysis`
(`note_processor.py:252`), and when the disambiguation reply fails to parse
it calls `self._create_fallback_disambiguation` (`note_processor.py:429`);
neither method is defined anywhere in the repository, so the call raises
`AttributeError`, the outer handler re-raises, and the whole request aborts
instead of continuing with a deterministic fallback. -/
theorem parse_failure_fallback_missing_aborts :
    process_note_advanced svcA .badShape disNone stABC =
      (.error (.attributeError "_create_fallback_analysis"), svcA, stABC) ∧
    process_note_advanced svcA (.parsed c2analysis) disNone stBobs =
      (.error (.attributeError "_create_fallback_disambiguation"), svcA, stBobs) := by
  decide

/-- Claim C3, counterexample: with main person "Alice" (id `pa`) the note
mentions "ALICE"; resolution short-circuits to the pinned id, but
ensure-exists verifies by case-sensitive exact name, misses, and creates a
second Person node named "ALICE" — so a second Person node is created for
the main person and that mention's resolution action becomes "created". -/
theorem main_person_case_variant_duplicate_node :
    c3run.2.2.people.map (fun p => p.name) = ["Alice", "ALICE"] ∧
    stAlice1.people.map (fun p => p.name) = ["Alice"] ∧
    (match c3run.1 with
     | .ok r => (mapGet r.resolved_entities "ALICE").map (fun x => x.action)
     | .error _ => none) = some "created" := by
  decide

/-- Claim C4, counterexample: two mentions named "Bob" in one note (a person
mention, then a company mention).  After the first mention the map holds a
person `use_existing` resolution for "Bob"; processing the second mention
recomputes and overwrites it with a company `create_new` resolution, so a
resolution, once set, is recomputed rather than consulted. -/
theorem duplicate_name_resolution_recomputed :
    resolve_ambiguous_entities svcA [mkPerson "Bob"] disNone stBobby =
      .ok [("Alice", pinnedMainResolution svcA),
           ("Bob", { action := "use_existing", entity := mkPerson "Bob",
                     existing_id := some "pb", confidence := some (mkRat 8 10),
                     reasoning := none })] ∧
    resolve_ambiguous_entities svcA [mkPerson "Bob", fixBobCompany] disNone stBobby =
      .ok [("Alice", pinnedMainResolution svcA),
           ("Bob", { action := "create_new", entity := fixBobCompany,
                     existing_id := none, confidence := some (mkRat 9 10),
                     reasoning := none })] := by
  decide

/-- Claim C7, counterexample: a resolution whose entity type is "vehicle"
falls through the bucketing `elif` chain of `_create_graph_entities`, so the
created-entities summary contains no entry for it at all. -/
theorem unknown_entity_type_missing_from_report :
    (create_graph_entities fixC7map [] stEmpty).1 = emptyReport ∧
    (mapGet fixC7map "Batmobile").isSome = true := by
  decide

/-- Claim C9, counterexample: an extraction-chain failure also escapes
`process_note_advanced` as a raised error (the outer handler re-raises
everything), so the configuration error is not the only error class that
escapes to the caller. -/
theorem nonconfig_error_escapes :
    (process_note_advanced svcA (.raised "OpenAI API error") disNone stAlice1).1 =
      .error (.chainError "OpenAI API error") ∧
    PyError.chainError "OpenAI API error" ≠ PyError.configError := by
  decide

/-- Claim C9 (amended core): with the extraction chain unconfigured,
`process_note_advanced` raises the configuration error immediately — before
the main-person setup and any store lookup or mutation — leaving the session
and the graph state unchanged. -/
theorem unconfigured_raises_before_store_touch (svc : Service)
    (ext : LlmReply NoteAnalysis) (dis : String → LlmReply DisambiguationResult)
    (st : GraphState) (h : svc.configured = false) :
    process_note_advanced svc ext dis st = (.error .configError, svc, st) := by
  simp [process_note_advanced, h]

/-- Witness for the unconfigured-service theorem at a concrete session. -/
theorem unconfigured_raises_before_store_touch_witness :
    ({ configured := false, main_person_name := "Alice",
       main_person_id := none : Service }).configured = false ∧
    process_note_advanced
        { configured := false, main_person_name := "Alice",
          main_person_id := none } .badShape disNone stEmpty =
      (.error .configError,
       { configured := false, main_person_name := "Alice",
         main_person_id := none }, stEmpty) :=
  ⟨rfl, unconfigured_raises_before_store_touch _ _ _ _ rfl⟩

/-- Claim C8: for a validated relationship whose type is none of `WORKS_AT`,
`KNOWS`, `INTERESTED_IN`, `ATTENDED`, the commit loop body performs no store
call (so nothing can raise and the store is unchanged) and still appends the
summary entry marking the relationship as created. -/
theorem unknown_relationship_type_silent_noop (st : GraphState)
    (rep : CreatedReport) (rel : ValidatedRelationship)
    (h1 : rel.relationship_type ≠ "WORKS_AT")
    (h2 : rel.relationship_type ≠ "KNOWS")
    (h3 : rel.relationship_type ≠ "INTERESTED_IN")
    (h4 : rel.relationship_type ≠ "ATTENDED") :
    commitRelStep st rep rel =
      (st, { rep with relationships := rep.relationships ++
          [{ fromName := rel.from_entity, toName := rel.to_entity,
             rtype := rel.relationship_type, action := "created" }] }) := by
  simp [commitRelStep, h1, h2, h3, h4]

/-- Witness for the unknown-relationship-type theorem on a `LIVES_IN`
relationship. -/
theorem unknown_relationship_type_silent_noop_witness :
    ("LIVES_IN" ≠ "WORKS_AT" ∧ "LIVES_IN" ≠ "KNOWS" ∧
     "LIVES_IN" ≠ "INTERESTED_IN" ∧ "LIVES_IN" ≠ "ATTENDED") ∧
    commitRelStep stEmpty emptyReport
        { from_entity := "Alice", to_entity := "Paris", from_id := "pa",
          to_id := "l1", relationship_type := "LIVES_IN", strength := none,
          properties := [], context := "c" } =
      (stEmpty, { emptyReport with relationships :=
          [{ fromName := "Alice", toName := "Paris", rtype := "LIVES_IN",
             action := "created" }] }) :=
  ⟨by decide,
   unknown_relationship_type_silent_noop stEmpty emptyReport _
     (by decide) (by decide) (by decide) (by decide)⟩

/-- Claim C5: every relationship the validator emits references two names
present in the resolution map and carries two truthy resolved ids (a mention
whose endpoint name is absent from the map, or whose endpoint fails to yield
an id, is skipped and never appears); each emitted record carries the
original names, type and strength of one input mention. -/
theorem validated_relationships_fully_resolved
    (rels : List RelationshipMention) (m : ResMap) (st : GraphState)
    (v : ValidatedRelationship)
    (hv : v ∈ (validate_relationships rels m st).1) :
    v.from_id ≠ "" ∧ v.to_id ≠ "" ∧
    (mapGet m v.from_entity).isSome ∧ (mapGet m v.to_entity).isSome ∧
    ∃ rel ∈ rels, v.from_entity = rel.from_entity ∧
      v.to_entity = rel.to_entity ∧
      v.relationship_type = rel.relationship_type ∧
      v.strength = rel.strength := by
  have hpre := prematerialize_preserve
    (fun mm _ => mm.map Prod.fst = m.map Prod.fst)
    (fun k mm stt hh => by
      show (ensure_entity_exists k mm stt).2.1.map Prod.fst = m.map Prod.fst
      rw [ensure_keys]
      exact hh)
    (m.map Prod.fst) m st rfl
  simp only [validate_relationships] at hv
  have hq := validateRelsLoop_sound rels (m.map Prod.fst) rels _ _ []
    (fun r hr => hr) hpre (fun w hw => absurd hw (List.not_mem_nil w)) v hv
  obtain ⟨h1, h2, h3, h4, h5⟩ := hq
  exact ⟨h1, h2, (mapGet_isSome_iff m v.from_entity).mpr h3,
    (mapGet_isSome_iff m v.to_entity).mpr h4, h5⟩

/-- Witness for the validator soundness theorem on a concrete run. -/
theorem validated_relationships_fully_resolved_witness :
    c5vrel ∈ (validate_relationships c5rels c5map stABC).1 ∧
    (c5vrel.from_id ≠ "" ∧ c5vrel.to_id ≠ "" ∧
      (mapGet c5map c5vrel.from_entity).isSome ∧
      (mapGet c5map c5vrel.to_entity).isSome ∧
      ∃ rel ∈ c5rels, c5vrel.from_entity = rel.from_entity ∧
        c5vrel.to_entity = rel.to_entity ∧
        c5vrel.relationship_type = rel.relationship_type ∧
        c5vrel.strength = rel.strength) :=
  ⟨by decide,
   validated_relationships_fully_resolved c5rels c5map stABC c5vrel (by decide)⟩

/-- Claim C6: for a resolution marked `use_existing` with a truthy id whose
entity no longer resolves by name in the store (and whose type is one of the
five supported kinds), ensure-exists creates a fresh entity of that type,
returns the new id, and mutates the resolution to action `"created"` with
the new id. -/
theorem stale_id_self_healing (key : String) (m : ResMap) (st : GraphState)
    (r : EntityResolution)
    (hget : mapGet m key = some r)
    (hact : r.action = "use_existing")
    (hid : strOptFalsy r.existing_id = false)
    (hmiss : lookupEntityId st r.entity.entity_type r.entity.name = none)
    (hknown : knownType r.entity.entity_type = true) :
    ∃ st2, ensure_entity_exists key m st =
        (some (freshId st), updateResolutionAt m key (freshId st), st2) ∧
      st2.createLog = st.createLog ++ [(r.entity.entity_type, r.entity.name)] ∧
      mapGet (updateResolutionAt m key (freshId st)) key =
        some { r with
               action := "created",
               existing_id := some (freshId st) } := by
  rcases createByType_cases st r.entity with ⟨hkf, _⟩ | ⟨st2, hc, hlog, _⟩
  · rw [hkf] at hknown
    simp at hknown
  · refine ⟨st2, ?_, hlog,
      mapGet_updateResolutionAt_self m key (freshId st) r hget⟩
    unfold ensure_entity_exists
    rw [hget]
    dsimp only
    rw [if_pos hact]
    simp only [hid, Bool.false_eq_true, if_false]
    rw [hmiss]
    dsimp only
    unfold create_entity_and_update_resolution
    rw [hc]

/-- Witness for the stale-id self-healing theorem on a concrete stale
company resolution. -/
theorem stale_id_self_healing_witness :
    (mapGet c6map "Google" = some (resUse c6mention "zz") ∧
     (resUse c6mention "zz").action = "use_existing" ∧
     strOptFalsy (resUse c6mention "zz").existing_id = false ∧
     lookupEntityId stEmpty (resUse c6mention "zz").entity.entity_type
       (resUse c6mention "zz").entity.name = none ∧
     knownType (resUse c6mention "zz").entity.entity_type = true) ∧
    (∃ st2, ensure_entity_exists "Google" c6map stEmpty =
        (some (freshId stEmpty),
         updateResolutionAt c6map "Google" (freshId stEmpty), st2) ∧
      st2.createLog = stEmpty.createLog ++
        [((resUse c6mention "zz").entity.entity_type,
          (resUse c6mention "zz").entity.name)] ∧
      mapGet (updateResolutionAt c6map "Google" (freshId stEmpty)) "Google" =
        some { resUse c6mention "zz" with
               action := "created",
               existing_id := some (freshId stEmpty) }) :=
  ⟨by decide,
   stale_id_self_healing "Google" c6map stEmpty (resUse c6mention "zz")
     (by decide) (by decide) (by decide) (by decide) (by decide)⟩

/-- Claim C10: when no person matches the supplied main-person name exactly
but the fuzzy search returns at least one candidate, the session silently
adopts the first candidate — the cached id becomes that candidate's id and
the session's main-person name is overwritten with the candidate's stored
name — and the pinned seed of the resolution map is then keyed by the
adopted name, not the name the caller supplied to `set_main_person`. -/
theorem fuzzy_adopts_first_candidate (svc0 : Service) (st : GraphState)
    (name : String) (p : StoredPerson) (rest : List StoredPerson)
    (dis : String → LlmReply DisambiguationResult)
    (h1 : get_person_by_name st name = none)
    (h2 : search_people st name = p :: rest) :
    ensure_main_person_exists (set_main_person svc0 name none) st =
      (set_main_person svc0 p.name (some p.id), st) ∧
    resolve_ambiguous_entities (set_main_person svc0 p.name (some p.id)) []
        dis st =
      .ok [(p.name,
            pinnedMainResolution (set_main_person svc0 p.name (some p.id)))] := by
  obtain ⟨cf, nm0, id0⟩ := svc0
  constructor
  · simp [ensure_main_person_exists, set_main_person, strOptFalsy, h1, h2]
  · rfl

/-- Witness for the first-candidate adoption theorem: the caller supplies
"Ali" and the session adopts the stored "Alice Smith". -/
theorem fuzzy_adopts_first_candidate_witness :
    (get_person_by_name c10st "Ali" = none ∧
     search_people c10st "Ali" = [stP "p1" "Alice Smith"]) ∧
    (ensure_main_person_exists
        (set_main_person { configured := true, main_person_name := "X",
                           main_person_id := none } "Ali" none) c10st =
      (set_main_person { configured := true, main_person_name := "X",
                         main_person_id := none } "Alice Smith" (some "p1"), c10st) ∧
     resolve_ambiguous_entities
        (set_main_person { configured := true, main_person_name := "X",
                           main_person_id := none } "Alice Smith" (some "p1")) []
        disNone c10st =
      .ok [("Alice Smith",
            pinnedMainResolution
              (set_main_person { configured := true, main_person_name := "X",
                                 main_person_id := none } "Alice Smith"
                (some "p1")))]) := by
  refine ⟨⟨by decide, by decide⟩, ?_⟩
  have h := fuzzy_adopts_first_candidate
    { configured := true, main_person_name := "X", main_person_id := none }
    c10st "Ali" (stP "p1" "Alice Smith") [] disNone (by decide) (by decide)
  exact h

theorem countNamed_append (a b : List ReportEntry) (k : String) :
    countNamed (a ++ b) k = countNamed a k + countNamed b k := by
  induction a with
  | nil => simp [countNamed]
  | cons en rest ih =>
    show (if en.name = k then 1 else 0) + countNamed (rest ++ b) k =
      ((if en.name = k then 1 else 0) + countNamed rest k) + countNamed b k
    rw [ih]
    omega

theorem reportEntityStep_count (rep : CreatedReport)
    (kv : String × EntityResolution) (k : String) :
    entryCount (reportEntityStep rep kv) k =
      entryCount rep k +
      (if kv.2.entity.name = k ∧ knownType kv.2.entity.entity_type = true
       then 1 else 0) := by
  unfold reportEntityStep entryCount
  by_cases h1 : kv.2.entity.entity_type = "person"
  · rw [if_pos h1]
    by_cases hk : kv.2.entity.name = k
    · simp [countNamed_append, countNamed, hk, knownType, h1]
      omega
    · simp [countNamed_append, countNamed, hk, knownType, h1]
  · rw [if_neg h1]
    by_cases h2 : kv.2.entity.entity_type = "company"
    · rw [if_pos h2]
      by_cases hk : kv.2.entity.name = k
      · simp [countNamed_append, countNamed, hk, knownType, h2]
        omega
      · simp [countNamed_append, countNamed, hk, knownType, h2]
    · rw [if_neg h2]
      by_cases h3 : kv.2.entity.entity_type = "topic"
      · rw [if_pos h3]
        by_cases hk : kv.2.entity.name = k
        · simp [countNamed_append, countNamed, hk, knownType, h3]
          omega
        · simp [countNamed_append, countNamed, hk, knownType, h3]
      · rw [if_neg h3]
        by_cases h4 : kv.2.entity.entity_type = "event"
        · rw [if_pos h4]
          by_cases hk : kv.2.entity.name = k
          · simp [countNamed_append, countNamed, hk, knownType, h4]
            omega
          · simp [countNamed_append, countNamed, hk, knownType, h4]
        · rw [if_neg h4]
          by_cases h5 : kv.2.entity.entity_type = "location"
          · rw [if_pos h5]
            by_cases hk : kv.2.entity.name = k
            · simp [countNamed_append, countNamed, hk, knownType, h5]
              omega
            · simp [countNamed_append, countNamed, hk, knownType, h5]
          · rw [if_neg h5]
            simp [knownType, h1, h2, h3, h4, h5]

theorem reportEntitiesLoop_count (m : ResMap) :
    ∀ (rep : CreatedReport) (k : String),
      entryCount (reportEntitiesLoop m rep) k =
        entryCount rep k + countRes m k := by
  induction m with
  | nil => intro rep k; simp [reportEntitiesLoop, countRes]
  | cons kv rest ih =>
    intro rep k
    simp only [reportEntitiesLoop, countRes]
    rw [ih, reportEntityStep_count]
    omega

theorem countRes_zero (m : ResMap) (k : String)
    (h : ∀ kv ∈ m, kv.2.entity.name ≠ k) : countRes m k = 0 := by
  induction m with
  | nil => rfl
  | cons kv rest ih =>
    simp only [countRes]
    rw [if_neg (fun hc => h kv (List.mem_cons_self _ _) hc.1),
      ih (fun x hx => h x (List.mem_cons_of_mem _ hx))]

theorem countRes_of_get (m : ResMap) (k : String) (r : EntityResolution)
    (hnd : (m.map Prod.fst).Nodup) (hna : nameAgree m)
    (hget : mapGet m k = some r) :
    countRes m k = if knownType r.entity.entity_type = true then 1 else 0 := by
  induction m with
  | nil => simp [mapGet] at hget
  | cons kv rest ih =>
    rw [mapGet_cons] at hget
    simp only [List.map_cons, List.nodup_cons] at hnd
    by_cases hk : kv.1 = k
    · rw [if_pos hk] at hget
      injection hget with h2
      simp only [countRes]
      have hname : kv.2.entity.name = k := by
        rw [hna kv (List.mem_cons_self _ _), hk]
      have hzero : countRes rest k = 0 := by
        apply countRes_zero
        intro x hx
        rw [hna x (List.mem_cons_of_mem _ hx)]
        intro hxk
        apply hnd.1
        rw [hk, ← hxk]
        exact List.mem_map_of_mem Prod.fst hx
      rw [hzero]
      by_cases hkn : knownType r.entity.entity_type = true
      · rw [if_pos hkn, if_pos ⟨hname, by rw [h2]; exact hkn⟩]
      · rw [if_neg hkn, if_neg (fun hc => hkn (by rw [← h2]; exact hc.2))]
    · rw [if_neg hk] at hget
      simp only [countRes]
      have hcond : ¬(kv.2.entity.name = k ∧
          knownType kv.2.entity.entity_type = true) := by
        intro hc
        apply hk
        rw [← hna kv (List.mem_cons_self _ _)]
        exact hc.1
      rw [if_neg hcond,
        ih hnd.2 (fun x hx => hna x (List.mem_cons_of_mem _ hx)) hget]
      omega

theorem reportEntityStep_bucket (rep : CreatedReport)
    (kv : String × EntityResolution) (t : String) :
    bucketFor (reportEntityStep rep kv) t = bucketFor rep t ∨
    bucketFor (reportEntityStep rep kv) t =
      bucketFor rep t ++ [entryOf kv] := by
  unfold reportEntityStep
  by_cases h1 : kv.2.entity.entity_type = "person"
  · rw [if_pos h1]
    by_cases ht : t = "person"
    · right
      unfold bucketFor entryOf
      simp [ht]
    · left
      unfold bucketFor
      split_ifs <;> simp_all
  · rw [if_neg h1]
    by_cases h2 : kv.2.entity.entity_type = "company"
    · rw [if_pos h2]
      by_cases ht : t = "company"
      · right
        unfold bucketFor entryOf
        simp [ht]
      · left
        unfold bucketFor
        split_ifs <;> simp_all
    · rw [if_neg h2]
      by_cases h3 : kv.2.entity.entity_type = "topic"
      · rw [if_pos h3]
        by_cases ht : t = "topic"
        · right
          unfold bucketFor entryOf
          simp [ht]
        · left
          unfold bucketFor
          split_ifs <;> simp_all
      · rw [if_neg h3]
        by_cases h4 : kv.2.entity.entity_type = "event"
        · rw [if_pos h4]
          by_cases ht : t = "event"
          · right
            unfold bucketFor entryOf
            simp [ht]
          · left
            unfold bucketFor
            split_ifs <;> simp_all
        · rw [if_neg h4]
          by_cases h5 : kv.2.entity.entity_type = "location"
          · rw [if_pos h5]
            by_cases ht : t = "location"
            · right
              unfold bucketFor entryOf
              simp [ht]
            · left
              unfold bucketFor
              split_ifs <;> simp_all
          · rw [if_neg h5]
            exact Or.inl rfl

theorem reportEntitiesLoop_bucket_mono (m : ResMap) :
    ∀ (rep : CreatedReport) (t : String) (x : ReportEntry),
      x ∈ bucketFor rep t → x ∈ bucketFor (reportEntitiesLoop m rep) t := by
  induction m with
  | nil => intro rep t x h; exact h
  | cons kv rest ih =>
    intro rep t x h
    simp only [reportEntitiesLoop]
    apply ih
    rcases reportEntityStep_bucket rep kv t with hb | hb
    · rw [hb]; exact h
    · rw [hb]; exact List.mem_append_left _ h

theorem reportEntityStep_bucket_self (rep : CreatedReport)
    (kv : String × EntityResolution)
    (hk : knownType kv.2.entity.entity_type = true) :
    entryOf kv ∈ bucketFor (reportEntityStep rep kv) kv.2.entity.entity_type := by
  unfold reportEntityStep
  by_cases h1 : kv.2.entity.entity_type = "person"
  · rw [if_pos h1, h1]
    unfold bucketFor entryOf
    simp
  · rw [if_neg h1]
    by_cases h2 : kv.2.entity.entity_type = "company"
    · rw [if_pos h2, h2]
      unfold bucketFor entryOf
      simp
    · rw [if_neg h2]
      by_cases h3 : kv.2.entity.entity_type = "topic"
      · rw [if_pos h3, h3]
        unfold bucketFor entryOf
        simp
      · rw [if_neg h3]
        by_cases h4 : kv.2.entity.entity_type = "event"
        · rw [if_pos h4, h4]
          unfold bucketFor entryOf
          simp
        · rw [if_neg h4]
          by_cases h5 : kv.2.entity.entity_type = "location"
          · rw [if_pos h5, h5]
            unfold bucketFor entryOf
            simp
          · rw [if_neg h5]
            have hfalse : knownType kv.2.entity.entity_type = false := by
              simp [knownType, h1, h2, h3, h4, h5]
            rw [hfalse] at hk
            simp at hk

theorem reportEntitiesLoop_mem (m : ResMap) :
    ∀ (rep : CreatedReport) (k0 : String) (r0 : EntityResolution),
      (k0, r0) ∈ m → knownType r0.entity.entity_type = true →
      entryOf (k0, r0) ∈
        bucketFor (reportEntitiesLoop m rep) r0.entity.entity_type := by
  induction m with
  | nil => intro rep k0 r0 h _; exact absurd h (List.not_mem_nil _)
  | cons kv rest ih =>
    intro rep k0 r0 hmem hk
    simp only [reportEntitiesLoop]
    rcases List.mem_cons.mp hmem with hmem | hmem
    · have hsnd : r0 = kv.2 := congrArg Prod.snd hmem
      subst hsnd
      exact reportEntitiesLoop_bucket_mono rest _ _ _
        (reportEntityStep_bucket_self rep kv hk)
    · exact ih _ k0 r0 hmem hk

theorem link_pc_log (st : GraphState) (a b : String) (ro : PyVal)
    (x : Bool × GraphState) (h : link_person_to_company st a b ro = some x) :
    x.2.createLog = st.createLog := by
  unfold link_person_to_company at h
  by_cases hc : (hasPersonId st a && hasCompanyId st b) = true
  · rw [if_pos hc] at h
    injection h with h2
    rw [← h2]
  · rw [if_neg hc] at h
    exact absurd h (by simp)

theorem link_knows_log (st : GraphState) (a b : String) (t s : PyVal)
    (x : Bool × GraphState)
    (h : create_person_relationship st a b t s = some x) :
    x.2.createLog = st.createLog := by
  unfold create_person_relationship at h
  by_cases hc : (hasPersonId st a && hasPersonId st b) = true
  · rw [if_pos hc] at h
    injection h with h2
    rw [← h2]
  · rw [if_neg hc] at h
    exact absurd h (by simp)

theorem link_topic_log (st : GraphState) (a b : String)
    (x : Bool × GraphState) (h : link_person_to_topic st a b = some x) :
    x.2.createLog = st.createLog := by
  unfold link_person_to_topic at h
  by_cases hc : (hasPersonId st a && hasTopicId st b) = true
  · rw [if_pos hc] at h
    injection h with h2
    rw [← h2]
  · rw [if_neg hc] at h
    exact absurd h (by simp)

theorem link_event_log (st : GraphState) (a b : String)
    (x : Bool × GraphState) (h : link_person_to_event st a b = some x) :
    x.2.createLog = st.createLog := by
  unfold link_person_to_event at h
  by_cases hc : (hasPersonId st a && hasEventId st b) = true
  · rw [if_pos hc] at h
    injection h with h2
    rw [← h2]
  · rw [if_neg hc] at h
    exact absurd h (by simp)

theorem commitRelStep_shape (st : GraphState) (rep : CreatedReport)
    (rel : ValidatedRelationship) :
    (commitRelStep st rep rel).1.createLog = st.createLog ∧
    (commitRelStep st rep rel).2.people = rep.people ∧
    (commitRelStep st rep rel).2.companies = rep.companies ∧
    (commitRelStep st rep rel).2.topics = rep.topics ∧
    (commitRelStep st rep rel).2.events = rep.events ∧
    (commitRelStep st rep rel).2.locations = rep.locations := by
  unfold commitRelStep
  by_cases h1 : rel.relationship_type = "WORKS_AT"
  · rw [if_pos h1]
    cases hl : link_person_to_company st rel.from_id rel.to_id
        (worksAtRoleArg rel) with
    | none => exact ⟨rfl, rfl, rfl, rfl, rfl, rfl⟩
    | some x => exact ⟨link_pc_log _ _ _ _ _ hl, rfl, rfl, rfl, rfl, rfl⟩
  · rw [if_neg h1]
    by_cases h2 : rel.relationship_type = "KNOWS"
    · rw [if_pos h2]
      cases hl : create_person_relationship st rel.from_id rel.to_id
          (knowsThirdArg rel) (knowsFourthArg rel) with
      | none => exact ⟨rfl, rfl, rfl, rfl, rfl, rfl⟩
      | some x => exact ⟨link_knows_log _ _ _ _ _ _ hl, rfl, rfl, rfl, rfl, rfl⟩
    · rw [if_neg h2]
      by_cases h3 : rel.relationship_type = "INTERESTED_IN"
      · rw [if_pos h3]
        cases hl : link_person_to_topic st rel.from_id rel.to_id with
        | none => exact ⟨rfl, rfl, rfl, rfl, rfl, rfl⟩
        | some x => exact ⟨link_topic_log _ _ _ _ hl, rfl, rfl, rfl, rfl, rfl⟩
      · rw [if_neg h3]
        by_cases h4 : rel.relationship_type = "ATTENDED"
        · rw [if_pos h4]
          cases hl : link_person_to_event st rel.from_id rel.to_id with
          | none => exact ⟨rfl, rfl, rfl, rfl, rfl, rfl⟩
          | some x => exact ⟨link_event_log _ _ _ _ hl, rfl, rfl, rfl, rfl, rfl⟩
        · rw [if_neg h4]
          exact ⟨rfl, rfl, rfl, rfl, rfl, rfl⟩

theorem commitRelsLoop_shape (vrels : List ValidatedRelationship) :
    ∀ (st : GraphState) (rep : CreatedReport),
      (commitRelsLoop vrels st rep).1.createLog = st.createLog ∧
      (commitRelsLoop vrels st rep).2.people = rep.people ∧
      (commitRelsLoop vrels st rep).2.companies = rep.companies ∧
      (commitRelsLoop vrels st rep).2.topics = rep.topics ∧
      (commitRelsLoop vrels st rep).2.events = rep.events ∧
      (commitRelsLoop vrels st rep).2.locations = rep.locations := by
  induction vrels with
  | nil => intro st rep; exact ⟨rfl, rfl, rfl, rfl, rfl, rfl⟩
  | cons rel rest ih =>
    intro st rep
    simp only [commitRelsLoop]
    obtain ⟨q1, q2, q3, q4, q5, q6⟩ := ih (commitRelStep st rep rel).1
      (commitRelStep st rep rel).2
    obtain ⟨s1, s2, s3, s4, s5, s6⟩ := commitRelStep_shape st rep rel
    exact ⟨q1.trans s1, q2.trans s2, q3.trans s3, q4.trans s4,
      q5.trans s5, q6.trans s6⟩

theorem create_graph_entities_shape (m : ResMap)
    (vrels : List ValidatedRelationship) (st : GraphState) :
    (create_graph_entities m vrels st).2.createLog = st.createLog ∧
    (create_graph_entities m vrels st).1.people =
      (reportEntitiesLoop m emptyReport).people ∧
    (create_graph_entities m vrels st).1.companies =
      (reportEntitiesLoop m emptyReport).companies ∧
    (create_graph_entities m vrels st).1.topics =
      (reportEntitiesLoop m emptyReport).topics ∧
    (create_graph_entities m vrels st).1.events =
      (reportEntitiesLoop m emptyReport).events ∧
    (create_graph_entities m vrels st).1.locations =
      (reportEntitiesLoop m emptyReport).locations :=
  commitRelsLoop_shape vrels st (reportEntitiesLoop m emptyReport)

theorem entryCount_create_graph (m : ResMap)
    (vrels : List ValidatedRelationship) (st : GraphState) (k : String) :
    entryCount (create_graph_entities m vrels st).1 k =
      countRes m k := by
  obtain ⟨_, e1, e2, e3, e4, e5⟩ := create_graph_entities_shape m vrels st
  unfold entryCount
  rw [e1, e2, e3, e4, e5]
  have := reportEntitiesLoop_count m emptyReport k
  unfold entryCount at this
  simpa [emptyReport, countNamed] using this

theorem bucketFor_create_graph (m : ResMap)
    (vrels : List ValidatedRelationship) (st : GraphState) (t : String) :
    bucketFor (create_graph_entities m vrels st).1 t =
      bucketFor (reportEntitiesLoop m emptyReport) t := by
  obtain ⟨_, e1, e2, e3, e4, e5⟩ := create_graph_entities_shape m vrels st
  unfold bucketFor
  split_ifs <;> first
    | exact e1
    | exact e2
    | exact e3
    | exact e4
    | exact e5
    | rfl

/-- Claim C7 (amended core): under the resolver's invariants (unique keys,
resolutions stored under their mention's name), every resolution of one of
the five known entity types yields exactly one creation-report entry — with
its name, id and action — in the bucket of its type, regardless of its
action; a resolution with an unknown entity type yields no entry at all. -/
theorem known_type_resolutions_reported_once
    (m : ResMap) (vrels : List ValidatedRelationship) (st : GraphState)
    (hnd : (m.map Prod.fst).Nodup) (hna : nameAgree m)
    (k : String) (r : EntityResolution) (hget : mapGet m k = some r) :
    entryCount (create_graph_entities m vrels st).1 k =
      (if knownType r.entity.entity_type = true then 1 else 0) ∧
    (knownType r.entity.entity_type = true →
      { name := k, id := r.existing_id, action := r.action } ∈
        bucketFor (create_graph_entities m vrels st).1
          r.entity.entity_type) := by
  constructor
  · rw [entryCount_create_graph, countRes_of_get m k r hnd hna hget]
  · intro hkn
    have hmem := mapGet_mem m k r hget
    have hname : r.entity.name = k := hna (k, r) hmem
    have h := reportEntitiesLoop_mem m emptyReport k r hmem hkn
    rw [bucketFor_create_graph]
    have hentry : ReportEntry.mk k r.existing_id r.action = entryOf (k, r) := by
      unfold entryOf
      rw [hname]
    rw [hentry]
    exact h

/-- Witness for the known-type report theorem on a concrete person
resolution. -/
theorem known_type_resolutions_reported_once_witness :
    ((c5map.map Prod.fst).Nodup ∧
     (∀ p ∈ c5map, p.2.entity.name = p.1) ∧
     mapGet c5map "Alice" = some (resUse (mkPerson "Alice") "pa")) ∧
    (entryCount (create_graph_entities c5map [] stEmpty).1 "Alice" =
      (if knownType (resUse (mkPerson "Alice") "pa").entity.entity_type = true
       then 1 else 0) ∧
     (knownType (resUse (mkPerson "Alice") "pa").entity.entity_type = true →
      { name := "Alice", id := (resUse (mkPerson "Alice") "pa").existing_id,
        action := (resUse (mkPerson "Alice") "pa").action } ∈
        bucketFor (create_graph_entities c5map [] stEmpty).1
          (resUse (mkPerson "Alice") "pa").entity.entity_type)) :=
  ⟨⟨by decide, by decide, by decide⟩,
   known_type_resolutions_reported_once c5map [] stEmpty (by decide)
     (by unfold nameAgree; decide) "Alice" (resUse (mkPerson "Alice") "pa")
     (by decide)⟩

theorem resolve_one_entity_entity (svc : Service) (e : EntityMention)
    (dis : String → LlmReply DisambiguationResult) (st : GraphState)
    (r : EntityResolution) (h : resolve_one_entity svc e dis st = .ok r) :
    r.entity = e := by
  unfold resolve_one_entity at h
  by_cases h1 : e.entity_type = "person"
  · rw [if_pos h1] at h
    unfold resolve_person_entity at h
    by_cases hsc : strLower e.name = strLower svc.main_person_name
    · rw [if_pos hsc] at h
      injection h with h2
      rw [← h2]
    · rw [if_neg hsc] at h
      cases hg : get_person_by_name st e.name with
      | some p =>
        rw [hg] at h
        dsimp only at h
        injection h with h2
        rw [← h2]
      | none =>
        rw [hg] at h
        dsimp only at h
        cases hs : search_people st e.name with
        | nil =>
          rw [hs] at h
          dsimp only at h
          injection h with h2
          rw [← h2]
        | cons p ps =>
          cases ps with
          | nil =>
            rw [hs] at h
            dsimp only at h
            injection h with h2
            rw [← h2]
          | cons q qs =>
            rw [hs] at h
            dsimp only at h
            cases hd : dis e.name with
            | parsed d =>
              rw [hd] at h
              dsimp only at h
              injection h with h2
              rw [← h2]
            | badShape =>
              rw [hd] at h
              simp at h
            | raised msg =>
              rw [hd] at h
              simp at h
  · rw [if_neg h1] at h
    by_cases h2 : e.entity_type = "company"
    · rw [if_pos h2] at h
      unfold resolve_company_entity at h
      cases hg : get_company_by_name st e.name with
      | some c =>
        rw [hg] at h
        dsimp only at h
        injection h with h3
        rw [← h3]
      | none =>
        rw [hg] at h
        dsimp only at h
        injection h with h3
        rw [← h3]
    · rw [if_neg h2] at h
      by_cases h3 : e.entity_type = "topic"
      · rw [if_pos h3] at h
        unfold resolve_topic_entity at h
        cases hg : get_topic_by_name st e.name with
        | some t =>
          rw [hg] at h
          dsimp only at h
          injection h with h4
          rw [← h4]
        | none =>
          rw [hg] at h
          dsimp only at h
          injection h with h4
          rw [← h4]
      · rw [if_neg h3] at h
        by_cases h4 : e.entity_type = "event"
        · rw [if_pos h4] at h
          unfold resolve_event_entity at h
          cases hg : get_event_by_name st e.name with
          | some ev =>
            rw [hg] at h
            dsimp only at h
            injection h with h5
            rw [← h5]
          | none =>
            rw [hg] at h
            dsimp only at h
            injection h with h5
            rw [← h5]
        · rw [if_neg h4] at h
          by_cases h5 : e.entity_type = "location"
          · rw [if_pos h5] at h
            unfold resolve_location_entity at h
            cases hg : get_location_by_city st e.name with
            | some l =>
              rw [hg] at h
              dsimp only at h
              injection h with h6
              rw [← h6]
            | none =>
              rw [hg] at h
              dsimp only at h
              injection h with h6
              rw [← h6]
          · rw [if_neg h5] at h
            injection h with h6
            rw [← h6]

theorem resolveLoop_nameAgree (svc : Service)
    (dis : String → LlmReply DisambiguationResult) (st : GraphState)
    (entities : List EntityMention) :
    ∀ m mout, nameAgree m →
      resolveEntitiesLoop svc dis st entities m = .ok mout →
      nameAgree mout := by
  induction entities with
  | nil =>
    intro m mout hm h
    simp only [resolveEntitiesLoop] at h
    injection h with h2
    rw [← h2]
    exact hm
  | cons e rest ih =>
    intro m mout hm h
    simp only [resolveEntitiesLoop] at h
    cases hr : resolve_one_entity svc e dis st with
    | error err =>
      rw [hr] at h
      simp at h
    | ok r =>
      rw [hr] at h
      dsimp only at h
      exact ih _ _ (nameAgree_mapSet m e.name r hm
        (by rw [resolve_one_entity_entity svc e dis st r hr])) h

theorem resolveLoop_nodup (svc : Service)
    (dis : String → LlmReply DisambiguationResult) (st : GraphState)
    (entities : List EntityMention) :
    ∀ m mout, (m.map Prod.fst).Nodup →
      resolveEntitiesLoop svc dis st entities m = .ok mout →
      (mout.map Prod.fst).Nodup := by
  induction entities with
  | nil =>
    intro m mout hm h
    simp only [resolveEntitiesLoop] at h
    injection h with h2
    rw [← h2]
    exact hm
  | cons e rest ih =>
    intro m mout hm h
    simp only [resolveEntitiesLoop] at h
    cases hr : resolve_one_entity svc e dis st with
    | error err =>
      rw [hr] at h
      simp at h
    | ok r =>
      rw [hr] at h
      dsimp only at h
      exact ih _ _ (nodup_keys_mapSet m e.name r hm) h

theorem create_upd_phaseGood (base : GraphState) (k : String) (m : ResMap)
    (st : GraphState) (r : EntityResolution)
    (hget : mapGet m k = some r) (hact : r.action ≠ "created")
    (h : phaseGood base m st) :
    phaseGood base (create_entity_and_update_resolution k r.entity m st).2.1
      (create_entity_and_update_resolution k r.entity m st).2.2 := by
  obtain ⟨hag, Δ, hlog, hbound, hcreated⟩ := h
  unfold create_entity_and_update_resolution
  rcases createByType_cases st r.entity with ⟨_, hc⟩ | ⟨st2, hc, hlog2, _⟩
  · rw [hc]
    exact ⟨hag, Δ, hlog, hbound, hcreated⟩
  · rw [hc]
    have hname : r.entity.name = k := hag (k, r) (mapGet_mem m k r hget)
    refine ⟨nameAgree_updateResolutionAt m k _ hag,
      Δ ++ [(r.entity.entity_type, k)], ?_, ?_, ?_⟩
    · rw [hlog2, hname, hlog, List.append_assoc]
    · intro n
      rw [List.countP_append]
      by_cases hn : n = k
      · have h0 : Δ.countP (fun c => c.2 = n) = 0 := by
          by_contra hpos
          obtain ⟨r', hget', hact'⟩ :=
            hcreated n (Nat.pos_of_ne_zero hpos)
          rw [hn, hget] at hget'
          injection hget' with he
          rw [← he] at hact'
          exact hact hact'
        rw [h0]
        simp [List.countP_cons, hn]
      · have hkn : ¬ k = n := fun hh => hn (Eq.symm hh)
        have hsing : List.countP (fun c => c.2 = n)
            [(r.entity.entity_type, k)] = 0 := by
          simp [List.countP_cons, hkn]
        rw [hsing]
        have := hbound n
        omega
    · intro n hpos
      rw [List.countP_append] at hpos
      by_cases hn : n = k
      · rw [hn]
        exact ⟨_, mapGet_updateResolutionAt_self m k (freshId st) r hget, rfl⟩
      · have hkn : ¬ k = n := fun hh => hn (Eq.symm hh)
        have hsing : List.countP (fun c => c.2 = n)
            [(r.entity.entity_type, k)] = 0 := by
          simp [List.countP_cons, hkn]
        rw [hsing] at hpos
        obtain ⟨r', hget', hact'⟩ := hcreated n (by omega)
        exact ⟨r', by
          rw [mapGet_updateResolutionAt_ne m k n (freshId st) hn]
          exact hget', hact'⟩

theorem ensure_phaseGood (base : GraphState) (k : String) (m : ResMap)
    (st : GraphState) (h : phaseGood base m st) :
    phaseGood base (ensure_entity_exists k m st).2.1
      (ensure_entity_exists k m st).2.2 := by
  unfold ensure_entity_exists
  cases hg : mapGet m k with
  | none => exact h
  | some r =>
    dsimp only
    by_cases ha : r.action = "use_existing"
    · rw [if_pos ha]
      by_cases hf : strOptFalsy r.existing_id = true
      · rw [if_pos hf]
        exact create_upd_phaseGood base k m st r hg (by rw [ha]; decide) h
      · rw [if_neg hf]
        cases hl : lookupEntityId st r.entity.entity_type r.entity.name with
        | some i => exact h
        | none =>
          exact create_upd_phaseGood base k m st r hg (by rw [ha]; decide) h
    · rw [if_neg ha]
      by_cases hc : r.action = "create_new"
      · rw [if_pos hc]
        by_cases hf : strOptFalsy r.existing_id = true
        · rw [if_pos hf]
          exact create_upd_phaseGood base k m st r hg (by rw [hc]; decide) h
        · rw [if_neg hf]
          exact h
      · rw [if_neg hc]
        exact h

theorem process_ok_decompose (svc : Service) (analysis : NoteAnalysis)
    (dis : String → LlmReply DisambiguationResult) (st : GraphState)
    (res : ProcResult) (svc' : Service) (stF : GraphState)
    (h : process_note_advanced svc (.parsed analysis) dis st =
      (.ok res, svc', stF)) :
    svc.configured = true ∧
    svc' = (ensure_main_person_exists svc st).1 ∧
    ∃ resolved,
      resolve_ambiguous_entities (ensure_main_person_exists svc st).1
        analysis.entities dis (ensure_main_person_exists svc st).2 =
        .ok resolved ∧
      res.resolved_entities =
        (validate_relationships analysis.relationships resolved
          (ensure_main_person_exists svc st).2).2.1 ∧
      res.validated_relationships =
        (validate_relationships analysis.relationships resolved
          (ensure_main_person_exists svc st).2).1 ∧
      stF = (create_graph_entities
        (validate_relationships analysis.relationships resolved
          (ensure_main_person_exists svc st).2).2.1
        (validate_relationships analysis.relationships resolved
          (ensure_main_person_exists svc st).2).1
        (validate_relationships analysis.relationships resolved
          (ensure_main_person_exists svc st).2).2.2).2 := by
  unfold process_note_advanced at h
  by_cases hcf : svc.configured = true
  · rw [if_pos hcf] at h
    dsimp only at h
    cases hres : resolve_ambiguous_entities
        (ensure_main_person_exists svc st).1 analysis.entities dis
        (ensure_main_person_exists svc st).2 with
    | error e =>
      rw [hres] at h
      dsimp only at h
      have := congrArg Prod.fst h
      simp at this
    | ok resolved =>
      rw [hres] at h
      dsimp only at h
      injection h with hx hrest
      injection hrest with hsvc hst
      injection hx with hres2
      exact ⟨hcf, hsvc.symm, resolved, rfl, by rw [← hres2],
        by rw [← hres2], hst.symm⟩
  · rw [if_neg hcf] at h
    have := congrArg Prod.fst h
    simp at this

/-- Claim C4 (amended core): in every successful run the resolution map ends
with unique keys — exactly one resolution per distinct name, the last
occurrence's (earlier occurrences of a repeated name are overwritten, not
consulted) — and the validation/commit stages after main-person setup issue
at most one store create call per entity name. -/
theorem resolution_map_unique_and_single_create (svc : Service)
    (analysis : NoteAnalysis) (dis : String → LlmReply DisambiguationResult)
    (st : GraphState) (res : ProcResult) (svc' : Service) (stF : GraphState)
    (hok : process_note_advanced svc (.parsed analysis) dis st =
      (.ok res, svc', stF)) :
    (res.resolved_entities.map Prod.fst).Nodup ∧
    ∃ Δ, stF.createLog =
        (ensure_main_person_exists svc st).2.createLog ++ Δ ∧
      ∀ n, Δ.countP (fun c => c.2 = n) ≤ 1 := by
  obtain ⟨hcf, hsvc, resolved, hres, hmap, hvrel, hstF⟩ :=
    process_ok_decompose svc analysis dis st res svc' stF hok
  simp only [resolve_ambiguous_entities] at hres
  have hseed_nodup : ((mapSet [] (ensure_main_person_exists svc st).1.main_person_name
      (pinnedMainResolution (ensure_main_person_exists svc st).1)).map
        Prod.fst).Nodup := by
    simp [mapSet]
  have hseed_agree : nameAgree (mapSet []
      (ensure_main_person_exists svc st).1.main_person_name
      (pinnedMainResolution (ensure_main_person_exists svc st).1)) := by
    intro p hp
    simp only [mapSet, List.mem_singleton] at hp
    rw [hp]
    rfl
  have hnodup_res : (resolved.map Prod.fst).Nodup :=
    resolveLoop_nodup _ dis _ analysis.entities _ resolved hseed_nodup hres
  have hna : nameAgree resolved :=
    resolveLoop_nameAgree _ dis _ analysis.entities _ resolved hseed_agree hres
  constructor
  · rw [hmap]
    have hkeys := validate_preserve
      (fun mm _ => mm.map Prod.fst = resolved.map Prod.fst)
      (fun k mm stt hh => by
        show (ensure_entity_exists k mm stt).2.1.map Prod.fst =
          resolved.map Prod.fst
        rw [ensure_keys]
        exact hh)
      analysis.relationships resolved (ensure_main_person_exists svc st).2 rfl
    rw [hkeys]
    exact hnodup_res
  · have hpg0 : phaseGood (ensure_main_person_exists svc st).2 resolved
        (ensure_main_person_exists svc st).2 :=
      ⟨hna, [], by simp, fun n => by simp, fun n hpos => by simp at hpos⟩
    have hpg := validate_preserve
      (phaseGood (ensure_main_person_exists svc st).2)
      (fun k mm stt hh => ensure_phaseGood _ k mm stt hh)
      analysis.relationships resolved (ensure_main_person_exists svc st).2 hpg0
    obtain ⟨_, Δ, hlog, hbound, _⟩ := hpg
    refine ⟨Δ, ?_, hbound⟩
    rw [hstF, (create_graph_entities_shape _ _ _).1]
    exact hlog

/-- Witness for the unique-resolution theorem on a concrete run. -/
theorem resolution_map_unique_and_single_create_witness :
    process_note_advanced svcA (.parsed c4wanalysis) disNone stAlice1 =
      (.ok c4wres, svcA, stAlice1) ∧
    ((c4wres.resolved_entities.map Prod.fst).Nodup ∧
     ∃ Δ, stAlice1.createLog =
        (ensure_main_person_exists svcA stAlice1).2.createLog ++ Δ ∧
       ∀ n, Δ.countP (fun c => c.2 = n) ≤ 1) :=
  ⟨by decide,
   resolution_map_unique_and_single_create svcA c4wanalysis disNone stAlice1
     c4wres svcA stAlice1 (by decide)⟩

theorem freshId_ne_empty (st : GraphState) : freshId st ≠ "" := by
  unfold freshId
  intro h
  have hlen := congrArg String.length h
  rw [String.length_append] at hlen
  rw [show ("id" : String).length = 2 from by decide,
    show ("" : String).length = 0 from by decide] at hlen
  omega

theorem ensure_main_spec (svc : Service) (st : GraphState)
    (hfresh : strOptFalsy svc.main_person_id = true)
    (hids : ∀ p ∈ st.people, p.id ≠ "") :
    strOptFalsy (ensure_main_person_exists svc st).1.main_person_id = false ∧
    ∃ p, p ∈ (ensure_main_person_exists svc st).2.people ∧
      p.name = (ensure_main_person_exists svc st).1.main_person_name := by
  unfold ensure_main_person_exists
  rw [if_pos hfresh]
  cases hg : get_person_by_name st svc.main_person_name with
  | some p =>
    dsimp only
    have hg' : firstSuch (fun q => q.name = svc.main_person_name)
        st.people = some p := hg
    obtain ⟨hpmem, hpname⟩ := firstSuch_eq_some _ _ _ hg'
    constructor
    · simp [strOptFalsy, hids p hpmem]
    · exact ⟨p, hpmem, of_decide_eq_true hpname⟩
  | none =>
    dsimp only
    cases hs : search_people st svc.main_person_name with
    | cons p rest =>
      dsimp only
      have hpmem : p ∈ st.people := mem_search_people st _ p
        (by rw [hs]; exact List.mem_cons_self _ _)
      constructor
      · simp [strOptFalsy, hids p hpmem]
      · exact ⟨p, hpmem, rfl⟩
    | nil =>
      dsimp only
      constructor
      · show strOptFalsy (some (freshId st)) = false
        simp [strOptFalsy, freshId_ne_empty st]
      · refine ⟨_, List.mem_append_right st.people
          (List.mem_singleton.mpr rfl), rfl⟩

theorem ensure_mainGood (nm : String) (mid : Option String) (k : String)
    (m : ResMap) (st : GraphState) (h : mainGood nm mid m st) :
    mainGood nm mid (ensure_entity_exists k m st).2.1
      (ensure_entity_exists k m st).2.2 := by
  obtain ⟨hmf, ⟨r, hget, hact, hid, htype, hname⟩, ⟨p, hp, hpn⟩⟩ := h
  by_cases hk : k = nm
  · subst hk
    have hpp : (get_person_by_name st r.entity.name).isSome := by
      apply firstSuch_isSome _ _ p hp
      simp [hpn, hname]
    obtain ⟨q, hq⟩ := Option.isSome_iff_exists.mp hpp
    have hlk : lookupEntityId st r.entity.entity_type r.entity.name =
        some q.id := by
      simp [lookupEntityId, htype, hq]
    unfold ensure_entity_exists
    rw [hget]
    dsimp only
    rw [if_pos hact]
    have hf : strOptFalsy r.existing_id = false := by
      rw [hid]
      exact hmf
    simp only [hf, Bool.false_eq_true, if_false]
    rw [hlk]
    dsimp only
    exact ⟨hmf, ⟨r, hget, hact, hid, htype, hname⟩, ⟨p, hp, hpn⟩⟩
  · obtain ⟨hm', hpe, _⟩ := ensure_shape k m st
    refine ⟨hmf, ?_, ?_⟩
    · rcases hm' with hm' | hm'
      · rw [hm']
        exact ⟨r, hget, hact, hid, htype, hname⟩
      · rw [hm', mapGet_updateResolutionAt_ne m k nm (freshId st)
          (fun hh => hk hh.symm)]
        exact ⟨r, hget, hact, hid, htype, hname⟩
    · obtain ⟨ps, hps⟩ := hpe
      exact ⟨p, by rw [hps]; exact List.mem_append_left _ hp, hpn⟩

theorem resolveLoop_mainGood (svc : Service)
    (dis : String → LlmReply DisambiguationResult) (st : GraphState)
    (entities : List EntityMention)
    (hperson : ∀ e ∈ entities, e.name = svc.main_person_name →
      e.entity_type = "person") :
    ∀ m mout,
      (∃ r, mapGet m svc.main_person_name = some r ∧
        r.action = "use_existing" ∧ r.existing_id = svc.main_person_id ∧
        r.entity.entity_type = "person" ∧
        r.entity.name = svc.main_person_name) →
      resolveEntitiesLoop svc dis st entities m = .ok mout →
      ∃ r, mapGet mout svc.main_person_name = some r ∧
        r.action = "use_existing" ∧ r.existing_id = svc.main_person_id ∧
        r.entity.entity_type = "person" ∧
        r.entity.name = svc.main_person_name := by
  induction entities with
  | nil =>
    intro m mout hm h
    simp only [resolveEntitiesLoop] at h
    injection h with h2
    rw [← h2]
    exact hm
  | cons e rest ih =>
    intro m mout hm h
    simp only [resolveEntitiesLoop] at h
    cases hr : resolve_one_entity svc e dis st with
    | error err =>
      rw [hr] at h
      simp at h
    | ok r =>
      rw [hr] at h
      dsimp only at h
      refine ih (fun x hx hnx => hperson x (List.mem_cons_of_mem _ hx) hnx)
        _ _ ?_ h
      by_cases he : e.name = svc.main_person_name
      · have htype := hperson e (List.mem_cons_self _ _) he
        have hrval : r =
            { action := "use_existing", entity := e,
              existing_id := svc.main_person_id, confidence := some 1,
              reasoning := none } := by
          unfold resolve_one_entity at hr
          rw [if_pos htype] at hr
          unfold resolve_person_entity at hr
          rw [if_pos (by rw [he])] at hr
          injection hr with h3
          exact h3.symm
        refine ⟨r, ?_, ?_, ?_, ?_, ?_⟩
        · rw [← he]
          exact mapGet_set_self m e.name r
        · rw [hrval]
        · rw [hrval]
        · rw [hrval]
          exact htype
        · rw [hrval]
          exact he
      · obtain ⟨r0, hget0, rest0⟩ := hm
        exact ⟨r0, by
          rw [mapGet_set_ne m e.name svc.main_person_name r he]
          exact hget0, rest0⟩

/-- Claim C3 (amended core): in a fresh session (no pre-pinned id, store ids
truthy, mentions bearing exactly the adopted main-person name typed as
person), person-entity resolution short-circuits any casing of the main
person's name to the pinned resolution (action `use_existing`, the cached
id, confidence 1.0), and in every successful result the resolution at the
main person's name still has action `use_existing` with the cached id.  (The
claim's further conjunct — that no second Person node is ever created for
the main person — is false: a case-variant mention can force a duplicate at
commit, see the counterexample.) -/
theorem main_person_resolution_use_existing (svc : Service)
    (analysis : NoteAnalysis) (dis : String → LlmReply DisambiguationResult)
    (st : GraphState)
    (hids : ∀ p ∈ st.people, p.id ≠ "")
    (hfresh : strOptFalsy svc.main_person_id = true)
    (hperson : ∀ e ∈ analysis.entities,
      e.name = (ensure_main_person_exists svc st).1.main_person_name →
      e.entity_type = "person")
    (res : ProcResult) (svc' : Service) (stF : GraphState)
    (hok : process_note_advanced svc (.parsed analysis) dis st =
      (.ok res, svc', stF)) :
    (∀ e : EntityMention, e.entity_type = "person" →
      strLower e.name = strLower svc'.main_person_name →
      resolve_person_entity svc' e dis (ensure_main_person_exists svc st).2 =
        .ok { action := "use_existing", entity := e,
              existing_id := svc'.main_person_id, confidence := some 1,
              reasoning := none }) ∧
    ∃ r, mapGet res.resolved_entities svc'.main_person_name = some r ∧
      r.action = "use_existing" ∧ r.existing_id = svc'.main_person_id := by
  obtain ⟨hcf, hsvc, resolved, hres, hmap, hvrel, hstF⟩ :=
    process_ok_decompose svc analysis dis st res svc' stF hok
  subst hsvc
  constructor
  · intro e htype hname
    unfold resolve_person_entity
    rw [if_pos hname]
  · obtain ⟨hmf1, p0, hp0, hpn0⟩ := ensure_main_spec svc st hfresh hids
    simp only [resolve_ambiguous_entities] at hres
    have hseed : ∃ r, mapGet (mapSet []
        (ensure_main_person_exists svc st).1.main_person_name
        (pinnedMainResolution (ensure_main_person_exists svc st).1))
        (ensure_main_person_exists svc st).1.main_person_name = some r ∧
        r.action = "use_existing" ∧
        r.existing_id = (ensure_main_person_exists svc st).1.main_person_id ∧
        r.entity.entity_type = "person" ∧
        r.entity.name = (ensure_main_person_exists svc st).1.main_person_name :=
      ⟨pinnedMainResolution (ensure_main_person_exists svc st).1,
        mapGet_set_self _ _ _, rfl, rfl, rfl, rfl⟩
    have hresolved := resolveLoop_mainGood
      (ensure_main_person_exists svc st).1 dis
      (ensure_main_person_exists svc st).2 analysis.entities hperson
      _ resolved hseed hres
    have hmg : mainGood (ensure_main_person_exists svc st).1.main_person_name
        (ensure_main_person_exists svc st).1.main_person_id resolved
        (ensure_main_person_exists svc st).2 :=
      ⟨hmf1, hresolved, ⟨p0, hp0, hpn0⟩⟩
    have hv := validate_preserve
      (mainGood (ensure_main_person_exists svc st).1.main_person_name
        (ensure_main_person_exists svc st).1.main_person_id)
      (fun k mm stt hh => ensure_mainGood _ _ k mm stt hh)
      analysis.relationships resolved (ensure_main_person_exists svc st).2 hmg
    obtain ⟨_, ⟨r, hgetr, hactr, hidr, _, _⟩, _⟩ := hv
    rw [hmap]
    exact ⟨r, hgetr, hactr, hidr⟩

/-- Witness for the amended main-person theorem on a fresh-session run. -/
theorem main_person_resolution_use_existing_witness :
    ((∀ p ∈ stAlice1.people, p.id ≠ "") ∧
     strOptFalsy c3wsvc.main_person_id = true ∧
     (∀ e ∈ c4wanalysis.entities,
       e.name = (ensure_main_person_exists c3wsvc stAlice1).1.main_person_name →
       e.entity_type = "person") ∧
     process_note_advanced c3wsvc (.parsed c4wanalysis) disNone stAlice1 =
       (.ok c4wres, svcA, stAlice1)) ∧
    ((∀ e : EntityMention, e.entity_type = "person" →
      strLower e.name = strLower svcA.main_person_name →
      resolve_person_entity svcA e disNone
          (ensure_main_person_exists c3wsvc stAlice1).2 =
        .ok { action := "use_existing", entity := e,
              existing_id := svcA.main_person_id, confidence := some 1,
              reasoning := none }) ∧
     ∃ r, mapGet c4wres.resolved_entities svcA.main_person_name = some r ∧
       r.action = "use_existing" ∧ r.existing_id = svcA.main_person_id) :=
  ⟨⟨by decide, rfl, by decide, by decide⟩,
   main_person_resolution_use_existing c3wsvc c4wanalysis disNone stAlice1
     (by decide) rfl (by decide) c4wres svcA stAlice1 (by decide)⟩

end NetworkJournal
